import Mathlib

/-!
# datatable-customizer: a verification development of `src/index.js`

The file embeds the event handlers and renderers of `src/index.js` as pure
functions over explicit page state and proves properties of them.

Modelling conventions.

* Record counts and page numbers reported by the widget are natural numbers;
  where the source subtracts (`page - 1`, `pages - 1`) the arithmetic is done in
  `Int`.  Template literals print such numbers as decimal numerals.
* A DOM element is a record of the attributes the source reads or writes.  The
  jQuery data store of an element belongs to that element alone: `.data(k)` on
  an element does not see data stored on a descendant.
* A handler returns the list of calls it makes on the widget or the console, in
  order, together with the next page state where it has one.
* A plain object is the list of its own string-valued properties.  Identifiers
  of filter controls are ordinary property names, not names that every object
  inherits.
* An absolute data-source URL is kept in parsed form: the list of its query
  parameters and the rest.  On any other text `new URL(...)` throws.
* Valid JSON text in the `'filterValues'` storage slot is represented by the
  value it parses to, and that value by what the rehydration reads of it: its
  truthiness and, for each property, the truthiness and the string conversion of
  the property.
* A function that can throw returns the exception together with the page state
  at that moment; jQuery passes on what an event handler throws.
-/

namespace DatatableCustomizer

/-! ## Page Info -/

/-- The snapshot returned by `table.page.info()`.  The field `end_` is the
source's `pageInfo.end`. -/
structure PageInfo where
  page : Nat
  pages : Nat
  start : Nat
  end_ : Nat
  recordsTotal : Nat
  recordsDisplay : Nat
  deriving DecidableEq, Repr

/-! ## Calls made by the handlers -/

/-- The observable calls of the click handlers.  `pageDraw none` is
`dataTable.page(undefined).draw('page')`. -/
inductive Effect where
  | preventDefault
  | pageDraw (pageNum : Option Int)
  | buttonTrigger (buttonIndex : Nat)
  | consoleError (message : String) (exportType : Option String)
  deriving DecidableEq, Repr

/-! ## Pagination elements -/

/-- The anchor element built by `$('<a>')` inside each pagination control. -/
structure Anchor where
  classes : List String
  href : String
  data : List (String × Int)
  text : String
  deriving DecidableEq, Repr

/-- The list item element built by `$('<li>')`: its own classes, its own jQuery
data store, and the anchor appended to it. -/
structure Li where
  classes : List String
  data : List (String × Int)
  child : Anchor
  deriving DecidableEq, Repr

/-- The jQuery call `hasClass`. -/
def Li.hasClass (li : Li) (c : String) : Bool := li.classes.contains c

/-- The jQuery call `addClass`. -/
def Li.addClass (li : Li) (c : String) : Li :=
  if li.classes.contains c then li else { li with classes := li.classes ++ [c] }

/-- The jQuery call `$(li).data(key)`: reads the data store of the item itself;
`none` is `undefined`. -/
def Li.getData (li : Li) (key : String) : Option Int := li.data.lookup key

/-- The expression
`$('<li>').addClass('page-item').append($('<a>').addClass('page-link').attr('href', '#').data('page', target).text(label))`.
The `data` call is in the chain of the anchor, so the value lands in the
anchor's data store. -/
def mkPageItem (target : Int) (label : String) : Li :=
  { classes := ["page-item"]
    data := []
    child := { classes := ["page-link"], href := "#", data := [("page", target)], text := label } }

/-- The loop `for (let i = 0; i < pageInfo.pages; i++)` of
`applyCustomPagination`, entered at counter `i` with `remaining = pages - i`
iterations to go. -/
def pageButtonLoop (pageInfo : PageInfo) : Nat → Nat → List Li → List Li
  | 0, _, container => container
  | remaining + 1, i, container =>
    let pageButton := mkPageItem (i : Int) (toString (i + 1))
    let pageButton := if i = pageInfo.page then pageButton.addClass "active" else pageButton
    pageButtonLoop pageInfo remaining (i + 1) (container ++ [pageButton])

/-- The jQuery call `paginationElement.empty()`: every child is removed. -/
def emptyContainer (_container : List Li) : List Li := []

/-- The function `applyCustomPagination`: maps the Page Info and the previous
children of the pagination container to its new children. -/
def applyCustomPagination (pageInfo : PageInfo) (container : List Li) : List Li :=
  let container := emptyContainer container
  let prevButton := mkPageItem ((pageInfo.page : Int) - 1) "Previous"
  let nextButton := mkPageItem ((pageInfo.page : Int) + 1) "Next"
  let prevButton := if pageInfo.page = 0 then prevButton.addClass "disabled" else prevButton
  let nextButton :=
    if (pageInfo.page : Int) = (pageInfo.pages : Int) - 1 then nextButton.addClass "disabled"
    else nextButton
  let container := container ++ [prevButton]
  let container := pageButtonLoop pageInfo pageInfo.pages 0 container
  container ++ [nextButton]

/-- The click handler bound to `'[data-pagination] li'` in `datatable`; `li` is
the list item the delegated handler runs on. -/
def paginationClick (li : Li) : List Effect :=
  if li.hasClass "disabled" || li.hasClass "active" then [Effect.preventDefault]
  else
    let pageNum := li.getData "page"
    [Effect.preventDefault, Effect.pageDraw pageNum]

/-- The numbered control the loop builds at counter `i`. -/
def numberedItem (pageInfo : PageInfo) (i : Nat) : Li :=
  if i = pageInfo.page then (mkPageItem (i : Int) (toString (i + 1))).addClass "active"
  else mkPageItem (i : Int) (toString (i + 1))

/-! ## Entries label -/

/-- The function `applyCustomShowEntries`: the text written into the label. -/
def applyCustomShowEntries (pageInfo : PageInfo) : String :=
  let filteredCount := pageInfo.recordsDisplay
  let totalCount := pageInfo.recordsTotal
  let displayStart := pageInfo.start + 1
  let displayEnd := pageInfo.end_
  if filteredCount = totalCount then
    "Showing " ++ toString displayStart ++ " to " ++ toString displayEnd ++ " of "
      ++ toString totalCount ++ " entries"
  else
    "Showing " ++ toString displayStart ++ " to " ++ toString displayEnd ++ " of "
      ++ toString filteredCount ++ " filtered entries (Total: " ++ toString totalCount
      ++ " entries)"

/-! ## Export dispatch -/

/-- The `extend` kinds of the `buttons` option passed to `DataTable` in
`datatable`, in the order they are configured. -/
def buttons : List String := ["csv", "excel", "pdf", "copy", "print"]

/-- The click handler of `applyCustomExport`; `exportType` is
`$(this).data('export')`, `none` when the element carries no such data. -/
def applyCustomExport (exportType : Option String) : List Effect :=
  match exportType with
  | some "csv" => [Effect.preventDefault, Effect.buttonTrigger 0]
  | some "excel" => [Effect.preventDefault, Effect.buttonTrigger 1]
  | some "pdf" => [Effect.preventDefault, Effect.buttonTrigger 2]
  | some "copy" => [Effect.preventDefault, Effect.buttonTrigger 3]
  | some "print" => [Effect.preventDefault, Effect.buttonTrigger 4]
  | _ => [Effect.preventDefault, Effect.consoleError "Unknown export type:" exportType]

/-! ## Search adapter -/

/-- Browser-local storage: the list of its entries, key first. -/
abbrev Storage := List (String × String)

/-- The call `localStorage.getItem(key)`; `none` is `null`. -/
def Storage.getItem (st : Storage) (key : String) : Option String := List.lookup key st

/-- The call `localStorage.removeItem(key)`. -/
def Storage.removeItem (st : Storage) (key : String) : Storage :=
  st.filter (fun entry => entry.1 ≠ key)

/-- The call `localStorage.setItem(key, value)`: overwrites the entry of `key`
or adds one. -/
def Storage.setItem : Storage → String → String → Storage
  | [], key, value => [(key, value)]
  | (k, v) :: rest, key, value =>
    if k = key then (key, value) :: rest else (k, v) :: Storage.setItem rest key value

/-- What `applyCustomSearchFilter` and its input handler read and write: the
table's element id, its `oFeatures.bStateSave` flag, the widget's current search
term, the number of redraws requested, the value shown in the custom search
input, and browser-local storage. -/
structure SearchState where
  tableId : String
  bStateSave : Bool
  tableSearch : String
  draws : Nat
  inputValue : String
  localStorage : Storage
  deriving DecidableEq, Repr

/-- The storage key `'datatable_search_' + table.table().node().id`. -/
def searchKey (s : SearchState) : String := "datatable_search_" ++ s.tableId

/-- The body of `applyCustomSearchFilter` that runs at initialisation (the
registration of the input handler changes no state). -/
def applyCustomSearchFilter (s : SearchState) : SearchState :=
  let s := if !s.bStateSave then
      { s with localStorage := s.localStorage.removeItem (searchKey s) }
    else s
  let defaultSearchValue := s.tableSearch
  if defaultSearchValue ≠ "" then { s with inputValue := defaultSearchValue } else s

/-- One `input` event on the custom search box after the user has edited it to
read `typed`: the handler registered by `applyCustomSearchFilter`. -/
def searchInput (s : SearchState) (typed : String) : SearchState :=
  let s := { s with inputValue := typed }
  let searchTerm := s.inputValue
  let s := { s with tableSearch := searchTerm, draws := s.draws + 1 }
  if s.bStateSave then
    { s with localStorage := s.localStorage.setItem (searchKey s) searchTerm }
  else s

/-! ## Filter synchroniser -/

/-- A plain JavaScript object whose property values are strings: its own
properties, key first. -/
abbrev JsObject := List (String × String)

/-- Property read `o[k]`; `none` is `undefined`. -/
def JsObject.getProp (o : JsObject) (k : String) : Option String := List.lookup k o

/-- Property write `o[k] = v`. -/
def JsObject.setProp : JsObject → String → String → JsObject
  | [], k, v => [(k, v)]
  | (k', v') :: rest, k, v =>
    if k' = k then (k, v) :: rest else (k', v') :: JsObject.setProp rest k v

/-- Property removal `delete o[k]`. -/
def JsObject.deleteProp (o : JsObject) (k : String) : JsObject :=
  o.filter (fun p => p.1 ≠ k)

/-- A parsed absolute URL: `searchParams` is the list kept by its
`URLSearchParams` object and `base` is everything outside the query. -/
structure Url where
  base : String
  searchParams : List (String × String)
  deriving DecidableEq, Repr

/-- What `table.ajax.url()` returns: the text of an absolute URL, kept in parsed
form, or a text that is not an absolute URL, such as `/your-endpoint`. -/
inductive AjaxUrl where
  | absolute (url : Url)
  | relative (text : String)
  deriving DecidableEq, Repr

/-- The exceptions raised while the filter code runs: the `SyntaxError` of
`JSON.parse`, the `TypeError` of `new URL(...)`, and the error jQuery throws on a
selector it cannot compile. -/
inductive JsError where
  | syntaxError (text : String)
  | typeError (text : String)
  | selectorError (selector : String)
  deriving DecidableEq, Repr

/-- The constructor call `new URL(table.ajax.url())`, which has no base
argument: it throws on a text that is not an absolute URL. -/
def newURL : AjaxUrl → Except JsError Url
  | AjaxUrl.absolute url => Except.ok url
  | AjaxUrl.relative text => Except.error (JsError.typeError text)

/-- The call `searchParams.delete(name)`: every pair named `name` goes. -/
def paramsDelete (ps : List (String × String)) (name : String) : List (String × String) :=
  ps.filter (fun p => p.1 ≠ name)

/-- The call `searchParams.set(name, value)`: the first pair named `name` takes
the value and the other pairs of that name go; with no such pair, one is
appended. -/
def paramsSet : List (String × String) → String → String → List (String × String)
  | [], name, value => [(name, value)]
  | (k, v) :: rest, name, value =>
    if k = name then (name, value) :: paramsDelete rest name
    else (k, v) :: paramsSet rest name value

/-- An element matched by `filterSelector`: its `id` attribute, its current
value as `val()` returns it (the empty string also stands for `null`), its
classes, and its kind: `options = none` is a text input, which takes every
string as its value, and `options = some vs` is a `select` whose options have
the values `vs`. -/
structure FilterControl where
  id : String
  value : String
  classes : List String
  options : Option (List String)
  deriving DecidableEq, Repr

/-- The jQuery call `$(this).val(v)`.  A text input shows `v`.  A `select`
selects its option of value `v`; when it has none, no option stays selected and
`val()` returns `null` afterwards. -/
def FilterControl.setVal (c : FilterControl) (v : String) : FilterControl :=
  match c.options with
  | none => { c with value := v }
  | some vs => if vs.contains v then { c with value := v } else { c with value := "" }

/-- The characters the `.` of a JavaScript regular expression does not match. -/
def isLineTerminator (c : Char) : Bool :=
  c.toNat = 10 || c.toNat = 13 || c.toNat = 8232 || c.toNat = 8233

/-- The body of a double-quoted attribute value in jQuery's selector grammar,
the regular expression `(?:\\.|[^\\"])*`: a backslash (code 92) takes the next
character with it, which must not be a line terminator, and no other character
may be a double quote (code 34). -/
def quotedBody : List Char → Bool
  | [] => true
  | [c] => !(c.toNat = 34 || c.toNat = 92)
  | c :: d :: rest =>
    if c.toNat = 34 then false
    else if c.toNat = 92 then !isLineTerminator d && quotedBody rest
    else quotedBody (d :: rest)

/-- Whether jQuery compiles the selector `option[value="v"]` of line 106.  The
text `v` is spliced in unescaped, so the selector is well formed when `v` is the
body of a quoted value.  Any other text is counted as failing: it ends the
quoted value early, as `a"b` does, or leaves it open, and compiles only if what
follows happens to be selector syntax again. -/
def selectorCompiles (v : String) : Bool := quotedBody v.toList

/-- A property of the value parsed from storage, as the rehydration uses it:
whether it is truthy, and its string conversion, which is what `val(...)` passes
to the control and what the template literal of line 106 splices in. -/
structure SavedProp where
  truthy : Bool
  text : String
  deriving DecidableEq, Repr

/-- A value returned by `JSON.parse`, as the rehydration uses it: whether it is
truthy, and the properties that reading `savedFilterValues[name]` finds in it. -/
structure JsValue where
  truthy : Bool
  props : List (String × SavedProp)
  deriving DecidableEq, Repr

/-- The text held in the `'filterValues'` storage slot: either text that is not
valid JSON, or valid JSON text, represented by the value it parses to. -/
inductive JsonText where
  | invalid (raw : String)
  | valid (value : JsValue)
  deriving DecidableEq, Repr

/-- The value `null`. -/
def JsValue.null : JsValue := { truthy := false, props := [] }

/-- The call `JSON.stringify(filterValues)` on an object of strings: the text
parses back to a truthy value with the same properties; a property is truthy
when its string is not empty. -/
def JSON_stringify (o : JsObject) : JsonText :=
  JsonText.valid
    { truthy := true
      props := o.map (fun p => (p.1, { truthy := decide (p.2 ≠ ""), text := p.2 })) }

/-- The call `JSON.parse(localStorage.getItem('filterValues'))`.  An absent
entry reads as `null`, which `JSON.parse` converts to the text `null`. -/
def JSON_parse : Option JsonText → Except JsError JsValue
  | none => Except.ok JsValue.null
  | some (JsonText.valid value) => Except.ok value
  | some (JsonText.invalid raw) => Except.error (JsError.syntaxError raw)

/-- Calls recorded while the filter code runs: `table.ajax.url(url).load()`; on
the control `id`, `find(selector).attr('selected', 'selected')`,
`sumo.reload()` and `trigger('change.select2')`. -/
inductive FilterEffect where
  | ajaxLoad (url : Url)
  | markSelected (id selector : String)
  | sumoReload (id : String)
  | select2Change (id : String)
  deriving DecidableEq, Repr

/-- What `applyCustomFilters` reads and writes: the filter controls in document
order, the table's current data-source URL, the `'filterValues'` slot of
browser-local storage (`none` when absent), and the calls made so far. -/
structure FilterState where
  controls : List FilterControl
  ajaxUrl : AjaxUrl
  filterValuesItem : Option JsonText
  log : List FilterEffect
  deriving DecidableEq, Repr

/-- How a piece of the filter code ends: it returns, or it throws, in either
case leaving the page in the state given. -/
inductive Outcome where
  | done (s : FilterState)
  | thrown (e : JsError) (s : FilterState)
  deriving DecidableEq, Repr

/-- The loop `$(filterSelector).each(...)` of the change handler over the
controls still to visit, threading `newUrl` and `filterValues`. -/
def filterEach : List FilterControl → Url × JsObject → Url × JsObject
  | [], acc => acc
  | c :: rest, (newUrl, filterValues) =>
    let filterName := c.id
    let filterValue := c.value
    if filterValue ≠ "" then
      filterEach rest
        ({ newUrl with searchParams := paramsSet newUrl.searchParams filterName filterValue },
          filterValues.setProp filterName filterValue)
    else
      filterEach rest
        ({ newUrl with searchParams := paramsDelete newUrl.searchParams filterName },
          filterValues.deleteProp filterName)

/-- The `change` handler registered by `applyCustomFilters`.  When `new URL`
throws, nothing has been written yet. -/
def filterChange (s : FilterState) : Outcome :=
  match newURL s.ajaxUrl with
  | Except.error e => Outcome.thrown e s
  | Except.ok newUrl =>
    let filterValues : JsObject := []
    let result := filterEach s.controls (newUrl, filterValues)
    Outcome.done
      { s with
        filterValuesItem := some (JSON_stringify result.2)
        ajaxUrl := AjaxUrl.absolute result.1
        log := s.log ++ [FilterEffect.ajaxLoad result.1] }

/-- The selector `option[value="saved"]` that line 106 builds with a template
literal. -/
def optionSelector (saved : String) : String := "option[value=\"" ++ saved ++ "\"]"

/-- The call `$(this).find(...).attr('selected', 'selected')` of line 106 once
the selector has compiled: the options it matches inside the control are marked
selected, which does not change what `val()` returns. -/
def markOption (c : FilterControl) (saved : String) (s : FilterState) : FilterState :=
  { s with log := s.log ++ [FilterEffect.markSelected c.id (optionSelector saved)] }

/-- The reloads of lines 109 to 114: `sumo.reload()` on a control that the
SumoSelect plugin has marked with the class `SumoUnder`, and the namespaced
`change.select2` event, which the change handler does not listen to. -/
def widgetReloads (c : FilterControl) (s : FilterState) : FilterState :=
  let s := if c.classes.contains "SumoUnder" then
      { s with log := s.log ++ [FilterEffect.sumoReload c.id] }
    else s
  if c.classes.contains "select2" then
    { s with log := s.log ++ [FilterEffect.select2Change c.id] }
  else s

/-- The body run by the rehydration loop on a control `c` for which
`savedFilterValues[filterName]` is truthy and converts to the string `saved`;
`done` and `rest` are the controls before and after it.  The value is set with
`val(saved)`; `find` compiles the selector, throwing when it cannot, and the
options found are marked selected; `$(this).change()` runs the change handler on
the page as it then stands, and what that handler throws propagates; the reloads
of the SumoSelect and select2 widgets follow. -/
def rehydrateControl (done : List FilterControl) (c : FilterControl)
    (rest : List FilterControl) (saved : String) (s : FilterState) : Outcome :=
  let c' := c.setVal saved
  let s := { s with controls := done ++ c' :: rest }
  if !selectorCompiles saved then
    Outcome.thrown (JsError.selectorError (optionSelector saved)) s
  else
    match filterChange (markOption c saved s) with
    | Outcome.thrown e s => Outcome.thrown e s
    | Outcome.done s => Outcome.done (widgetReloads c s)

/-- The loop `$(filterSelector).each(...)` of the rehydration: `done` are the
controls already visited, the second list those still to visit.  An exception
ends the loop. -/
def rehydrateEach (savedFilterValues : List (String × SavedProp)) :
    List FilterControl → List FilterControl → FilterState → Outcome
  | _, [], s => Outcome.done s
  | done, c :: rest, s =>
    let filterName := c.id
    match List.lookup filterName savedFilterValues with
    | none => rehydrateEach savedFilterValues (done ++ [c]) rest s
    | some saved =>
      if saved.truthy then
        match rehydrateControl done c rest saved.text s with
        | Outcome.thrown e s => Outcome.thrown e s
        | Outcome.done s =>
          rehydrateEach savedFilterValues (done ++ [c.setVal saved.text]) rest s
      else rehydrateEach savedFilterValues (done ++ [c]) rest s

/-- The part of `applyCustomFilters` that runs at initialisation: the storage
read and the rehydration (the registration of the change handler changes no
state).  No exception is caught. -/
def applyCustomFilters (s : FilterState) : Outcome :=
  match JSON_parse s.filterValuesItem with
  | Except.error e => Outcome.thrown e s
  | Except.ok savedFilterValues =>
    if savedFilterValues.truthy then rehydrateEach savedFilterValues.props [] s.controls s
    else Outcome.done s

/-! ## Auxiliary notions used to state the filter properties -/

/-- The value of the last control of the list whose identifier is `k`; `none`
when no control has that identifier. -/
def lastValue : List FilterControl → String → Option String
  | [], _ => none
  | c :: rest, k =>
    match lastValue rest k with
    | some v => some v
    | none => if c.id = k then some c.value else none

/-- The control as the rehydration loop leaves it when nothing throws: it
receives `val(...)` of the stored property of its identifier when that property
is truthy. -/
def restoreControl (savedFilterValues : List (String × SavedProp)) (c : FilterControl) :
    FilterControl :=
  match List.lookup c.id savedFilterValues with
  | some saved => if saved.truthy then c.setVal saved.text else c
  | none => c

/-- Whether the rehydration loop restores the control. -/
def isRestored (savedFilterValues : List (String × SavedProp)) (c : FilterControl) : Bool :=
  match List.lookup c.id savedFilterValues with
  | some saved => saved.truthy
  | none => false

/-- Whether the control takes `v` as its value: it is a text input, or a
`select` with an option of value `v`. -/
def FilterControl.accepts (c : FilterControl) (v : String) : Bool :=
  match c.options with
  | none => true
  | some vs => vs.contains v

/-- A page reload: the document is rebuilt with the controls `fresh` and the
table starts again from the URL `url`, while browser-local storage is kept. -/
def pageReload (s : FilterState) (fresh : List FilterControl) (url : AjaxUrl) : FilterState :=
  { controls := fresh, ajaxUrl := url, filterValuesItem := s.filterValuesItem, log := [] }

/-! ## Pagination: what is rendered -/

theorem pageButtonLoop_eq (pageInfo : PageInfo) (remaining i : Nat) (container : List Li) :
    pageButtonLoop pageInfo remaining i container
      = container ++ (List.range' i remaining).map (numberedItem pageInfo) := by
  induction remaining generalizing i container with
  | zero => simp [pageButtonLoop]
  | succ r ih =>
    simp only [pageButtonLoop, ih, List.range'_succ, List.map_cons, List.append_assoc,
      List.singleton_append]
    rfl

theorem applyCustomPagination_eq (pageInfo : PageInfo) (old : List Li) :
    applyCustomPagination pageInfo old
      = (if pageInfo.page = 0 then (mkPageItem ((pageInfo.page : Int) - 1) "Previous").addClass
            "disabled"
          else mkPageItem ((pageInfo.page : Int) - 1) "Previous")
        :: (List.range' 0 pageInfo.pages).map (numberedItem pageInfo)
        ++ [if (pageInfo.page : Int) = (pageInfo.pages : Int) - 1 then
              (mkPageItem ((pageInfo.page : Int) + 1) "Next").addClass "disabled"
            else mkPageItem ((pageInfo.page : Int) + 1) "Next"] := by
  simp [applyCustomPagination, emptyContainer, pageButtonLoop_eq]

theorem mkPageItem_hasClass (target : Int) (label c : String) :
    (mkPageItem target label).hasClass c = decide (c = "page-item") := by
  by_cases h : c = "page-item"
  · subst h; simp [mkPageItem, Li.hasClass]
  · have h' : ¬ ("page-item" = c) := fun e => h e.symm
    simp [mkPageItem, Li.hasClass, h, h']

theorem addClass_hasClass (li : Li) (c d : String) :
    (li.addClass c).hasClass d = (li.hasClass d || decide (d = c)) := by
  unfold Li.addClass Li.hasClass
  by_cases h : li.classes.contains c = true
  · rw [if_pos h]
    by_cases hd : d = c
    · subst hd; simp_all
    · simp [hd]
  · rw [if_neg h]
    by_cases hd : d = c
    · subst hd; simp
    · have hd' : ¬ (c = d) := fun e => hd e.symm
      simp [hd, hd']

theorem addClass_child (li : Li) (c : String) : (li.addClass c).child = li.child := by
  unfold Li.addClass; split <;> rfl

theorem addClass_data (li : Li) (c : String) : (li.addClass c).data = li.data := by
  unfold Li.addClass; split <;> rfl

theorem numberedItem_child (pageInfo : PageInfo) (i : Nat) :
    (numberedItem pageInfo i).child
      = { classes := ["page-link"], href := "#", data := [("page", (i : Int))],
          text := toString (i + 1) } := by
  unfold numberedItem; split <;> simp [addClass_child, mkPageItem]

theorem numberedItem_active (pageInfo : PageInfo) (i : Nat) :
    (numberedItem pageInfo i).hasClass "active" = true ↔ i = pageInfo.page := by
  unfold numberedItem
  split <;> simp_all [addClass_hasClass, mkPageItem_hasClass]

theorem numberedItem_disabled (pageInfo : PageInfo) (i : Nat) :
    (numberedItem pageInfo i).hasClass "disabled" = false := by
  unfold numberedItem
  split <;> simp [addClass_hasClass, mkPageItem_hasClass]

/-- No list item rendered by `applyCustomPagination` has anything in its own
data store: the page index is stored on the anchor inside it. -/
theorem rendered_item_data (pageInfo : PageInfo) (old : List Li) (li : Li)
    (h : li ∈ applyCustomPagination pageInfo old) : li.data = [] := by
  rw [applyCustomPagination_eq] at h
  simp only [List.cons_append, List.mem_cons, List.mem_append, List.mem_map,
    List.mem_singleton, List.not_mem_nil, or_false] at h
  rcases h with h | ⟨i, -, h⟩ | h
  · subst h; split <;> simp [addClass_data, mkPageItem]
  · subst h; unfold numberedItem; split <;> simp [addClass_data, mkPageItem]
  · subst h; split <;> simp [addClass_data, mkPageItem]

/-- On every rendered control the click handler makes a navigation call exactly
when the control is neither disabled nor active, and the page number it passes is
`undefined`. -/
theorem paginationClick_rendered (pageInfo : PageInfo) (old : List Li) (li : Li)
    (h : li ∈ applyCustomPagination pageInfo old) :
    paginationClick li
      = if li.hasClass "disabled" || li.hasClass "active" then [Effect.preventDefault]
        else [Effect.preventDefault, Effect.pageDraw none] := by
  unfold paginationClick
  split
  · rfl
  · simp [Li.getData, rendered_item_data pageInfo old li h]

/-- When the table has at least one page and the current page exists, every
rendered control that is neither disabled nor active has an anchor whose stored
page index is an existing page. -/
theorem rendered_targets_in_range (pageInfo : PageInfo) (old : List Li) (li : Li)
    (hpage : pageInfo.page < pageInfo.pages) (h : li ∈ applyCustomPagination pageInfo old)
    (hd : li.hasClass "disabled" = false) :
    ∃ t : Int, li.child.data = [("page", t)] ∧ 0 ≤ t ∧ t < (pageInfo.pages : Int) := by
  rw [applyCustomPagination_eq] at h
  simp only [List.cons_append, List.mem_cons, List.mem_append, List.mem_map,
    List.mem_singleton, List.not_mem_nil, or_false, List.mem_range'_1] at h
  rcases h with h | ⟨i, hi, h⟩ | h
  · subst h
    split at hd
    · simp [addClass_hasClass] at hd
    · rename_i h0
      refine ⟨(pageInfo.page : Int) - 1, ?_, ?_, ?_⟩
      · split <;> simp [addClass_child, mkPageItem]
      · omega
      · omega
  · subst h
    refine ⟨(i : Int), ?_, ?_, ?_⟩
    · rw [numberedItem_child]
    · omega
    · omega
  · subst h
    split at hd
    · simp [addClass_hasClass] at hd
    · rename_i h0
      refine ⟨(pageInfo.page : Int) + 1, ?_, ?_, ?_⟩
      · split <;> simp [addClass_child, mkPageItem]
      · omega
      · omega

/-- C5: for a Page Info with `page < pages`, whatever the container held before,
`applyCustomPagination` leaves in it exactly a "Previous" control, then for each
`i` from `0` to `pages - 1` a control labelled `i + 1` whose anchor stores page
index `i`, then a "Next" control; "Previous" is disabled iff `page = 0`, "Next" is
disabled iff `page = pages - 1`, and numbered control `i` is active iff
`i = page`. -/
theorem C5_pagination_layout (pageInfo : PageInfo) (old : List Li)
    (hpage : pageInfo.page < pageInfo.pages) :
    ∃ (prev : Li) (numbered : List Li) (next : Li),
      applyCustomPagination pageInfo old = prev :: numbered ++ [next]
      ∧ prev.child.text = "Previous"
      ∧ (prev.hasClass "disabled" = true ↔ pageInfo.page = 0)
      ∧ numbered.length = pageInfo.pages
      ∧ (∀ i, i < pageInfo.pages → ∃ li, numbered[i]? = some li
          ∧ li.child.text = Nat.repr (i + 1)
          ∧ li.child.data = [("page", (i : Int))]
          ∧ (li.hasClass "active" = true ↔ i = pageInfo.page))
      ∧ next.child.text = "Next"
      ∧ (next.hasClass "disabled" = true ↔ pageInfo.page = pageInfo.pages - 1) := by
  refine ⟨_, _, _, applyCustomPagination_eq pageInfo old, ?_, ?_, ?_, ?_, ?_, ?_⟩
  · split <;> simp [addClass_child, mkPageItem]
  · split <;> simp_all [addClass_hasClass, mkPageItem_hasClass]
  · simp
  · intro i hi
    refine ⟨numberedItem pageInfo i, ?_, ?_, ?_, numberedItem_active pageInfo i⟩
    · simp [List.getElem?_map, List.getElem?_range', hi]
    · rw [numberedItem_child]; rfl
    · rw [numberedItem_child]
  · split <;> simp [addClass_child, mkPageItem]
  · split
    · rename_i h
      simp only [addClass_hasClass, mkPageItem_hasClass]
      simp
      omega
    · rename_i h
      simp only [mkPageItem_hasClass]
      simp
      omega

/-- Instance of C5 at `{page: 0, pages: 3}`. -/
theorem C5_pagination_layout_witness :
    (0 : Nat) < 3 ∧
    ∃ (prev : Li) (numbered : List Li) (next : Li),
      applyCustomPagination ⟨0, 3, 0, 5, 15, 15⟩ [] = prev :: numbered ++ [next]
      ∧ prev.child.text = "Previous"
      ∧ (prev.hasClass "disabled" = true ↔ (0 : Nat) = 0)
      ∧ numbered.length = 3
      ∧ (∀ i, i < 3 → ∃ li, numbered[i]? = some li
          ∧ li.child.text = Nat.repr (i + 1)
          ∧ li.child.data = [("page", (i : Int))]
          ∧ (li.hasClass "active" = true ↔ i = 0))
      ∧ next.child.text = "Next"
      ∧ (next.hasClass "disabled" = true ↔ (0 : Nat) = 3 - 1) :=
  ⟨by decide, C5_pagination_layout ⟨0, 3, 0, 5, 15, 15⟩ [] (by decide)⟩

/-- C1 (evaluation at the failing input): with `pages = 3` and `page = 0`, the
control rendered for page index 1 is neither disabled nor active and its anchor
stores index 1, yet the click handler, which reads the data store of the list
item, calls `page(undefined).draw('page')` and not `page(1).draw('page')`. -/
theorem C1_click_reads_item_not_anchor :
    ∃ li, (applyCustomPagination ⟨0, 3, 0, 5, 15, 15⟩ [])[2]? = some li
      ∧ li.child.text = "2"
      ∧ li.child.data = [("page", 1)]
      ∧ li.hasClass "disabled" = false
      ∧ li.hasClass "active" = false
      ∧ paginationClick li = [Effect.preventDefault, Effect.pageDraw none]
      ∧ paginationClick li ≠ [Effect.preventDefault, Effect.pageDraw (some 1)] := by
  refine ⟨_, rfl, ?_, ?_, ?_, ?_, ?_, ?_⟩ <;> decide

/-- C10 (evaluation at the failing input): for the empty table, `page = 0` and
`pages = 0`, the container receives "Previous" and "Next" only; "Previous" is
disabled, but "Next" is neither disabled nor active and its anchor stores page
index 1, which is not an existing page. -/
theorem C10_next_enabled_on_empty_table :
    ∃ prev next, applyCustomPagination ⟨0, 0, 0, 0, 0, 0⟩ [] = [prev, next]
      ∧ prev.child.text = "Previous"
      ∧ prev.hasClass "disabled" = true
      ∧ next.child.text = "Next"
      ∧ next.hasClass "disabled" = false
      ∧ next.hasClass "active" = false
      ∧ next.child.data = [("page", 1)]
      ∧ ¬ ((1 : Int) < ((0 : Nat) : Int)) := by
  refine ⟨_, _, rfl, ?_, ?_, ?_, ?_, ?_, ?_, ?_⟩ <;> decide

/-- C2 (counterexample): for `{start: 0, end: 4, recordsDisplay: 50,
recordsTotal: 50}` the label is "Showing 1 to 4 of 50 entries", not
"Showing 1 to 5 of 50 entries": `end` is printed as it is. -/
theorem C2_counterexample :
    applyCustomShowEntries ⟨0, 10, 0, 4, 50, 50⟩ = "Showing 1 to 4 of 50 entries"
    ∧ applyCustomShowEntries ⟨0, 10, 0, 4, 50, 50⟩ ≠ "Showing 1 to 5 of 50 entries" := by
  decide

/-- C2 (amended): the label is "Showing {start+1} to {end} of {recordsTotal}
entries" when `recordsDisplay` equals `recordsTotal` and "Showing {start+1} to
{end} of {recordsDisplay} filtered entries (Total: {recordsTotal} entries)"
otherwise, with `end` printed unchanged; so `{start: 0, end: 5, recordsDisplay:
50, recordsTotal: 50}` gives "Showing 1 to 5 of 50 entries" and `{start: 0, end:
5, recordsDisplay: 5, recordsTotal: 50}` gives "Showing 1 to 5 of 5 filtered
entries (Total: 50 entries)". -/
theorem C2_entries_label (pageInfo : PageInfo) :
    (applyCustomShowEntries pageInfo =
      if pageInfo.recordsDisplay = pageInfo.recordsTotal then
        String.join ["Showing ", Nat.repr (pageInfo.start + 1), " to ", Nat.repr pageInfo.end_,
          " of ", Nat.repr pageInfo.recordsTotal, " entries"]
      else
        String.join ["Showing ", Nat.repr (pageInfo.start + 1), " to ", Nat.repr pageInfo.end_,
          " of ", Nat.repr pageInfo.recordsDisplay, " filtered entries (Total: ",
          Nat.repr pageInfo.recordsTotal, " entries)"])
    ∧ applyCustomShowEntries ⟨0, 10, 0, 5, 50, 50⟩ = "Showing 1 to 5 of 50 entries"
    ∧ applyCustomShowEntries ⟨0, 1, 0, 5, 50, 5⟩
        = "Showing 1 to 5 of 5 filtered entries (Total: 50 entries)" := by
  refine ⟨?_, by decide, by decide⟩
  unfold applyCustomShowEntries
  by_cases h : pageInfo.recordsDisplay = pageInfo.recordsTotal
  · simp only [if_pos h]
    simp [String.join, toString, String.append_assoc]
  · simp only [if_neg h]
    simp [String.join, toString, String.append_assoc]

/-- C6: for a token that is the `extend` kind of the entry at position `n` of
the configured `buttons` list (csv 0, excel 1, pdf 2, copy 3, print 4) the click
handler triggers `table.button(n)` and nothing else; for every other token
value, also an absent one, it triggers no button and logs one diagnostic. -/
theorem C6_export_dispatch (exportType : Option String) :
    (∀ t n, exportType = some t → buttons[n]? = some t →
        applyCustomExport exportType = [Effect.preventDefault, Effect.buttonTrigger n])
    ∧ ((∀ t, exportType = some t → t ∉ buttons) →
        applyCustomExport exportType
          = [Effect.preventDefault, Effect.consoleError "Unknown export type:" exportType])
    ∧ buttons = ["csv", "excel", "pdf", "copy", "print"] := by
  refine ⟨?_, ?_, rfl⟩
  · intro t n ht hn
    subst ht
    match n, hn with
    | 0, hn => simp [buttons] at hn; subst hn; rfl
    | 1, hn => simp [buttons] at hn; subst hn; rfl
    | 2, hn => simp [buttons] at hn; subst hn; rfl
    | 3, hn => simp [buttons] at hn; subst hn; rfl
    | 4, hn => simp [buttons] at hn; subst hn; rfl
    | k + 5, hn => simp [buttons] at hn
  · intro h
    cases exportType with
    | none => rfl
    | some t =>
      have ht := h t rfl
      simp only [buttons, List.mem_cons, List.mem_singleton, List.not_mem_nil, or_false,
        not_or] at ht
      obtain ⟨h1, h2, h3, h4, h5⟩ := ht
      unfold applyCustomExport
      split <;> simp_all

/-- Instance of C6 at the tokens `pdf` and `xml`. -/
theorem C6_export_dispatch_witness :
    applyCustomExport (some "pdf") = [Effect.preventDefault, Effect.buttonTrigger 2]
    ∧ applyCustomExport (some "xml")
        = [Effect.preventDefault, Effect.consoleError "Unknown export type:" (some "xml")] :=
  ⟨(C6_export_dispatch (some "pdf")).1 "pdf" 2 rfl (by decide),
   (C6_export_dispatch (some "xml")).2.1 (by
      intro t ht
      cases ht
      decide)⟩

/-! ## Search adapter: persistence of the search term -/

theorem lookup_cons_self (k : String) {β : Type} (v : β) (rest : List (String × β)) :
    List.lookup k ((k, v) :: rest) = some v := by
  simp [List.lookup_cons]

theorem lookup_cons_ne {key k : String} {β : Type} (v : β) (rest : List (String × β))
    (h : k ≠ key) : List.lookup key ((k, v) :: rest) = List.lookup key rest := by
  have hb : (key == k) = false := by
    simpa using fun e : key = k => h e.symm
  simp [List.lookup_cons, hb]

theorem mem_of_lookup {key : String} {β : Type} {v : β} {l : List (String × β)}
    (h : List.lookup key l = some v) : (key, v) ∈ l := by
  induction l with
  | nil => simp at h
  | cons e rest ih =>
    obtain ⟨a, b⟩ := e
    by_cases ha : a = key
    · subst ha
      rw [lookup_cons_self] at h
      cases h
      exact List.mem_cons_self _ _
    · rw [lookup_cons_ne b rest ha] at h
      exact List.mem_cons_of_mem _ (ih h)

theorem getItem_removeItem (st : Storage) (key : String) :
    (st.removeItem key).getItem key = none := by
  induction st with
  | nil => rfl
  | cons e rest ih =>
    obtain ⟨k, v⟩ := e
    unfold Storage.removeItem Storage.getItem at *
    by_cases h : k = key
    · simpa [List.filter_cons, h] using ih
    · rw [List.filter_cons]
      simp only [ne_eq, h, not_false_eq_true, decide_True, if_true]
      rw [lookup_cons_ne v _ h]
      exact ih

theorem getItem_setItem (st : Storage) (key value : String) :
    (st.setItem key value).getItem key = some value := by
  induction st with
  | nil => exact lookup_cons_self key value []
  | cons e rest ih =>
    obtain ⟨k, v⟩ := e
    unfold Storage.getItem at *
    by_cases h : k = key
    · simp only [Storage.setItem, h, if_true]
      exact lookup_cons_self key value rest
    · simp only [Storage.setItem, h, if_false]
      rw [lookup_cons_ne v _ h]
      exact ih

theorem applyCustomSearchFilter_fixed (s : SearchState) :
    (applyCustomSearchFilter s).bStateSave = s.bStateSave
    ∧ (applyCustomSearchFilter s).tableId = s.tableId := by
  unfold applyCustomSearchFilter
  cases hb : s.bStateSave <;> by_cases ht : s.tableSearch = "" <;> simp [hb, ht]

theorem applyCustomSearchFilter_disabled (s : SearchState) (h : s.bStateSave = false) :
    (applyCustomSearchFilter s).localStorage.getItem (searchKey s) = none := by
  unfold applyCustomSearchFilter
  by_cases ht : s.tableSearch = "" <;> simp [h, ht, getItem_removeItem, searchKey]

theorem searchInput_fixed (s : SearchState) (typed : String) :
    (searchInput s typed).bStateSave = s.bStateSave
    ∧ (searchInput s typed).tableId = s.tableId := by
  unfold searchInput
  cases hb : s.bStateSave <;> simp [hb]

theorem searchInput_disabled (s : SearchState) (typed : String) (h : s.bStateSave = false) :
    (searchInput s typed).localStorage = s.localStorage := by
  unfold searchInput
  simp [h]

theorem searchInput_enabled (s : SearchState) (typed : String) (h : s.bStateSave = true) :
    (searchInput s typed).localStorage.getItem (searchKey s) = some typed := by
  unfold searchInput
  simp [h, getItem_setItem, searchKey]

theorem foldl_searchInput_fixed (terms : List String) (s : SearchState) :
    (terms.foldl searchInput s).bStateSave = s.bStateSave
    ∧ (terms.foldl searchInput s).tableId = s.tableId := by
  induction terms generalizing s with
  | nil => exact ⟨rfl, rfl⟩
  | cons t rest ih =>
    obtain ⟨h1, h2⟩ := ih (searchInput s t)
    obtain ⟨h3, h4⟩ := searchInput_fixed s t
    exact ⟨by simpa [List.foldl_cons] using h1.trans h3,
      by simpa [List.foldl_cons] using h2.trans h4⟩

theorem foldl_searchInput_disabled (terms : List String) (s : SearchState)
    (h : s.bStateSave = false) :
    (terms.foldl searchInput s).localStorage = s.localStorage := by
  induction terms generalizing s with
  | nil => rfl
  | cons t rest ih =>
    rw [List.foldl_cons, ih (searchInput s t) ((searchInput_fixed s t).1.trans h),
      searchInput_disabled s t h]

/-- C8: with state-saving disabled, after `applyCustomSearchFilter` has run and
after any finite sequence of input events, storage has no entry under
`'datatable_search_' + table id`, whatever storage held at the start; with
state-saving enabled, after each input event that key holds the term just
typed. -/
theorem C8_search_term_persistence (s : SearchState) (terms : List String) :
    (s.bStateSave = false →
      ((terms.foldl searchInput (applyCustomSearchFilter s)).localStorage.getItem
        ("datatable_search_" ++ s.tableId) = none))
    ∧ (s.bStateSave = true → ∀ t : String,
      (((terms ++ [t]).foldl searchInput (applyCustomSearchFilter s)).localStorage.getItem
        ("datatable_search_" ++ s.tableId) = some t)) := by
  constructor
  · intro h
    rw [foldl_searchInput_disabled terms _ ((applyCustomSearchFilter_fixed s).1.trans h)]
    exact applyCustomSearchFilter_disabled s h
  · intro h t
    rw [List.foldl_append, List.foldl_cons, List.foldl_nil]
    have hfix := foldl_searchInput_fixed terms (applyCustomSearchFilter s)
    have hinit := applyCustomSearchFilter_fixed s
    have hb : (terms.foldl searchInput (applyCustomSearchFilter s)).bStateSave = true :=
      (hfix.1.trans hinit.1).trans h
    have hk := searchInput_enabled _ t hb
    simpa [searchKey, hfix.2, hinit.2] using hk

/-- Instance of C8: a stale term is in storage at the start and two terms are
typed, once with state-saving off and once with it on. -/
theorem C8_search_term_persistence_witness :
    ((["a", "ab"].foldl searchInput
        (applyCustomSearchFilter
          ⟨"users", false, "", 0, "", [("datatable_search_users", "old")]⟩)).localStorage.getItem
      ("datatable_search_" ++ "users") = none)
    ∧ ((((["a"] ++ ["ab"]).foldl searchInput
        (applyCustomSearchFilter
          ⟨"users", true, "", 0, "", [("datatable_search_users", "old")]⟩)).localStorage.getItem
      ("datatable_search_" ++ "users") = some "ab")) :=
  ⟨(C8_search_term_persistence
      ⟨"users", false, "", 0, "", [("datatable_search_users", "old")]⟩ ["a", "ab"]).1 rfl,
   (C8_search_term_persistence
      ⟨"users", true, "", 0, "", [("datatable_search_users", "old")]⟩ ["a"]).2 rfl "ab"⟩

/-! ## Filter synchroniser: the change handler -/

theorem getProp_setProp (o : JsObject) (k v k' : String) :
    (o.setProp k v).getProp k' = if k' = k then some v else o.getProp k' := by
  induction o with
  | nil =>
    unfold JsObject.getProp
    by_cases h : k' = k
    · subst h; simp [JsObject.setProp, lookup_cons_self]
    · have h' : k ≠ k' := fun e => h e.symm
      simp [JsObject.setProp, h, lookup_cons_ne v [] h']
  | cons e rest ih =>
    obtain ⟨a, b⟩ := e
    unfold JsObject.getProp at *
    by_cases ha : a = k
    · subst ha
      simp only [JsObject.setProp, if_true]
      by_cases h : k' = a
      · subst h; simp [lookup_cons_self]
      · have h' : a ≠ k' := fun e => h e.symm
        simp [h, lookup_cons_ne _ rest h']
    · simp only [JsObject.setProp, ha, if_false]
      by_cases h : a = k'
      · subst h
        have hk : ¬ (a = k) := ha
        simp [lookup_cons_self, hk]
      · rw [lookup_cons_ne _ _ h, lookup_cons_ne _ _ h]
        exact ih

theorem getProp_deleteProp (o : JsObject) (k k' : String) :
    (o.deleteProp k).getProp k' = if k' = k then none else o.getProp k' := by
  induction o with
  | nil => simp [JsObject.deleteProp, JsObject.getProp]
  | cons e rest ih =>
    obtain ⟨a, b⟩ := e
    unfold JsObject.getProp JsObject.deleteProp at *
    by_cases ha : a = k
    · subst ha
      rw [List.filter_cons]
      simp only [ne_eq, not_true_eq_false, decide_False, Bool.false_eq_true, if_false]
      rw [ih]
      by_cases h : k' = a
      · simp [h]
      · have h' : a ≠ k' := fun e => h e.symm
        simp [h, lookup_cons_ne _ rest h']
    · rw [List.filter_cons]
      simp only [ne_eq, ha, not_false_eq_true, decide_True, if_true]
      by_cases h : a = k'
      · subst h
        have hk : ¬ (a = k) := ha
        simp [lookup_cons_self, hk]
      · rw [lookup_cons_ne _ _ h, lookup_cons_ne _ _ h]
        exact ih

theorem mem_setProp_value (o : JsObject) (k v : String) (hv : v ≠ "")
    (ho : ∀ p ∈ o, p.2 ≠ "") : ∀ p ∈ o.setProp k v, p.2 ≠ "" := by
  induction o with
  | nil =>
    intro p hp
    simp only [JsObject.setProp, List.mem_singleton] at hp
    subst hp; exact hv
  | cons e rest ih =>
    obtain ⟨a, b⟩ := e
    intro p hp
    by_cases ha : a = k
    · simp only [JsObject.setProp, ha, if_true, List.mem_cons] at hp
      rcases hp with hp | hp
      · subst hp; exact hv
      · exact ho p (List.mem_cons_of_mem _ hp)
    · simp only [JsObject.setProp, ha, if_false, List.mem_cons] at hp
      rcases hp with hp | hp
      · subst hp; exact ho (a, b) (List.mem_cons_self _ _)
      · exact ih (fun q hq => ho q (List.mem_cons_of_mem _ hq)) p hp

theorem mem_deleteProp_value (o : JsObject) (k : String) (ho : ∀ p ∈ o, p.2 ≠ "") :
    ∀ p ∈ o.deleteProp k, p.2 ≠ "" := by
  intro p hp
  exact ho p (List.mem_of_mem_filter hp)

theorem filter_key_paramsDelete (ps : List (String × String)) (name k : String) :
    (paramsDelete ps name).filter (fun p => decide (p.1 = k))
      = if k = name then [] else ps.filter (fun p => decide (p.1 = k)) := by
  unfold paramsDelete
  rw [List.filter_filter]
  by_cases h : k = name
  · subst h
    simp only [if_true]
    apply List.filter_eq_nil_iff.mpr
    intro p _
    by_cases hp : p.1 = k <;> simp [hp]
  · simp only [h, if_false]
    apply List.filter_congr
    intro p _
    by_cases hp : p.1 = k
    · have : ¬ (p.1 = name) := fun e => h (hp.symm.trans e)
      simp [hp, this, h]
    · simp [hp]

theorem filter_key_paramsSet (ps : List (String × String)) (name value k : String) :
    (paramsSet ps name value).filter (fun p => decide (p.1 = k))
      = if k = name then [(name, value)] else ps.filter (fun p => decide (p.1 = k)) := by
  induction ps with
  | nil =>
    by_cases h : k = name
    · subst h; simp [paramsSet]
    · have h' : ¬ (name = k) := fun e => h e.symm
      simp [paramsSet, h, h']
  | cons e rest ih =>
    obtain ⟨a, b⟩ := e
    by_cases ha : a = name
    · subst ha
      simp only [paramsSet, if_true]
      by_cases h : k = a
      · subst h
        rw [List.filter_cons]
        simp [filter_key_paramsDelete]
      · have h' : ¬ (a = k) := fun e => h e.symm
        rw [List.filter_cons, List.filter_cons]
        simp [h, h', filter_key_paramsDelete]
    · simp only [paramsSet, ha, if_false]
      rw [List.filter_cons, List.filter_cons, ih]
      by_cases h : k = name
      · subst h
        have : ¬ (a = k) := ha
        simp [this]
      · simp [h]

theorem mem_iff_mem_filter_key (ps : List (String × String)) (k v : String) :
    (k, v) ∈ ps ↔ (k, v) ∈ ps.filter (fun p => decide (p.1 = k)) := by
  simp [List.mem_filter]

theorem lastValue_eq_none_iff (cs : List FilterControl) (k : String) :
    lastValue cs k = none ↔ ∀ c ∈ cs, c.id ≠ k := by
  induction cs with
  | nil => simp [lastValue]
  | cons c rest ih =>
    simp only [lastValue, List.mem_cons, forall_eq_or_imp]
    cases hl : lastValue rest k with
    | some v =>
      have : ¬ ∀ c ∈ rest, c.id ≠ k := fun h => by
        rw [ih.mpr h] at hl; cases hl
      simp [this]
    | none =>
      have := ih.mp hl
      by_cases hc : c.id = k
      · simp [hc]
      · simpa [hc] using this

theorem lastValue_eq_some_iff (cs : List FilterControl) (k v : String) :
    lastValue cs k = some v ↔
      ∃ pre c post, cs = pre ++ c :: post ∧ c.id = k ∧ c.value = v ∧ ∀ d ∈ post, d.id ≠ k := by
  induction cs with
  | nil => simp [lastValue]
  | cons c rest ih =>
    simp only [lastValue]
    cases hl : lastValue rest k with
    | some w =>
      simp only [Option.some.injEq]
      constructor
      · intro hw
        subst hw
        obtain ⟨pre, c', post, hrest, hid, hval, hpost⟩ := ih.mp hl
        exact ⟨c :: pre, c', post, by simp [hrest], hid, hval, hpost⟩
      · rintro ⟨pre, c', post, hcs, hid, hval, hpost⟩
        cases pre with
        | nil =>
          simp only [List.nil_append, List.cons.injEq] at hcs
          obtain ⟨-, hrest⟩ := hcs
          subst hrest
          rw [(lastValue_eq_none_iff rest k).mpr hpost] at hl
          cases hl
        | cons p pre' =>
          simp only [List.cons_append, List.cons.injEq] at hcs
          obtain ⟨-, hrest⟩ := hcs
          have := ih.mpr ⟨pre', c', post, hrest, hid, hval, hpost⟩
          rw [hl] at this
          exact Option.some.inj this
    | none =>
      have hnone := (lastValue_eq_none_iff rest k).mp hl
      constructor
      · intro h
        by_cases hc : c.id = k
        · simp only [hc, if_true, Option.some.injEq] at h
          exact ⟨[], c, rest, rfl, hc, h, hnone⟩
        · simp [hc] at h
      · rintro ⟨pre, c', post, hcs, hid, hval, hpost⟩
        cases pre with
        | nil =>
          simp only [List.nil_append, List.cons.injEq] at hcs
          obtain ⟨hc, -⟩ := hcs
          subst hc
          simp [hid, hval]
        | cons p pre' =>
          simp only [List.cons_append, List.cons.injEq] at hcs
          obtain ⟨-, hrest⟩ := hcs
          exact absurd hid (hnone c' (by simp [hrest]))

theorem filterEach_base (cs : List FilterControl) (u : Url) (fv : JsObject) :
    (filterEach cs (u, fv)).1.base = u.base := by
  induction cs generalizing u fv with
  | nil => rfl
  | cons c rest ih =>
    simp only [filterEach]
    split <;> rw [ih]

theorem filterEach_snd_url (cs : List FilterControl) (u u' : Url) (fv : JsObject) :
    (filterEach cs (u, fv)).2 = (filterEach cs (u', fv)).2 := by
  induction cs generalizing u u' fv with
  | nil => rfl
  | cons c rest ih =>
    simp only [filterEach]
    split
    · exact ih _ _ _
    · exact ih _ _ _

theorem filterEach_getProp (cs : List FilterControl) (u : Url) (fv : JsObject) (k : String) :
    (filterEach cs (u, fv)).2.getProp k =
      match lastValue cs k with
      | none => fv.getProp k
      | some w => if w ≠ "" then some w else none := by
  induction cs generalizing u fv with
  | nil => simp [filterEach, lastValue]
  | cons c rest ih =>
    simp only [filterEach, lastValue]
    split
    · rename_i hv
      rw [ih]
      cases hl : lastValue rest k with
      | some w => rfl
      | none =>
        simp only [getProp_setProp]
        by_cases hc : c.id = k
        · have hk : k = c.id := hc.symm
          simp [hc, hv]
        · have hk : ¬ (k = c.id) := fun e => hc e.symm
          simp [hc, hk]
    · rename_i hv
      rw [ih]
      cases hl : lastValue rest k with
      | some w => rfl
      | none =>
        simp only [getProp_deleteProp]
        by_cases hc : c.id = k
        · have hk : k = c.id := hc.symm
          simp [hc, hv]
        · have hk : ¬ (k = c.id) := fun e => hc e.symm
          simp [hc, hk]

theorem filterEach_params (cs : List FilterControl) (u : Url) (fv : JsObject) (k : String) :
    (filterEach cs (u, fv)).1.searchParams.filter (fun p => decide (p.1 = k)) =
      match lastValue cs k with
      | none => u.searchParams.filter (fun p => decide (p.1 = k))
      | some w => if w ≠ "" then [(k, w)] else [] := by
  induction cs generalizing u fv with
  | nil => simp [filterEach, lastValue]
  | cons c rest ih =>
    simp only [filterEach, lastValue]
    split
    · rename_i hv
      rw [ih]
      cases hl : lastValue rest k with
      | some w => rfl
      | none =>
        simp only [filter_key_paramsSet]
        by_cases hc : c.id = k
        · have hk : k = c.id := hc.symm
          simp [hc, hv]
        · have hk : ¬ (k = c.id) := fun e => hc e.symm
          simp [hc, hk]
    · rename_i hv
      rw [ih]
      cases hl : lastValue rest k with
      | some w => rfl
      | none =>
        simp only [filter_key_paramsDelete]
        by_cases hc : c.id = k
        · have hk : k = c.id := hc.symm
          simp [hc, hv]
        · have hk : ¬ (k = c.id) := fun e => hc e.symm
          simp [hc, hk]

theorem filterEach_values (cs : List FilterControl) (u : Url) (fv : JsObject)
    (hfv : ∀ p ∈ fv, p.2 ≠ "") : ∀ p ∈ (filterEach cs (u, fv)).2, p.2 ≠ "" := by
  induction cs generalizing u fv with
  | nil => exact hfv
  | cons c rest ih =>
    simp only [filterEach]
    split
    · rename_i hv
      exact ih _ _ (mem_setProp_value fv c.id c.value hv hfv)
    · exact ih _ _ (mem_deleteProp_value fv c.id hfv)

theorem filterEach_all_empty (cs : List FilterControl) (u : Url)
    (h : ∀ c ∈ cs, c.value = "") : (filterEach cs (u, [])).2 = [] := by
  induction cs generalizing u with
  | nil => rfl
  | cons c rest ih =>
    have hc : c.value = "" := h c (List.mem_cons_self _ _)
    simp only [filterEach, hc, ne_eq, not_true_eq_false, if_false]
    exact ih _ (fun d hd => h d (List.mem_cons_of_mem _ hd))

theorem filterChange_absolute (s : FilterState) (u : Url) (h : s.ajaxUrl = AjaxUrl.absolute u) :
    filterChange s = Outcome.done
      { s with
        filterValuesItem := some (JSON_stringify (filterEach s.controls (u, [])).2)
        ajaxUrl := AjaxUrl.absolute (filterEach s.controls (u, [])).1
        log := s.log ++ [FilterEffect.ajaxLoad (filterEach s.controls (u, [])).1] } := by
  unfold filterChange
  rw [h]
  rfl

theorem filterChange_relative (s : FilterState) (text : String)
    (h : s.ajaxUrl = AjaxUrl.relative text) :
    filterChange s = Outcome.thrown (JsError.typeError text) s := by
  unfold filterChange
  rw [h]
  rfl

/-- C3 (counterexample): two controls share the identifier `a`, the first
holding `x` and the second empty; the persisted Filter Set is empty, although a
control with identifier `a` and non-empty value `x` exists.  And with the
relative data-source URL `/your-endpoint` the handler throws at `new URL(...)`
and persists nothing. -/
theorem C3_counterexample :
    (∃ s', filterChange
        ⟨[⟨"a", "x", [], none⟩, ⟨"a", "", [], none⟩],
          AjaxUrl.absolute ⟨"https://example.test/data", []⟩, none, []⟩ = Outcome.done s'
      ∧ s'.filterValuesItem = some (JSON_stringify [])
      ∧ ¬ (∀ k v : String, JsObject.getProp [] k = some v ↔
          ∃ c ∈ [(⟨"a", "x", [], none⟩ : FilterControl), ⟨"a", "", [], none⟩],
            c.id = k ∧ c.value = v ∧ v ≠ ""))
    ∧ filterChange ⟨[⟨"status", "open", [], none⟩], AjaxUrl.relative "/your-endpoint", none, []⟩
        = Outcome.thrown (JsError.typeError "/your-endpoint")
            ⟨[⟨"status", "open", [], none⟩], AjaxUrl.relative "/your-endpoint", none, []⟩ := by
  refine ⟨⟨_, rfl, by decide, ?_⟩, rfl⟩
  intro h
  have := (h "a" "x").mpr ⟨⟨"a", "x", [], none⟩, by simp, rfl, rfl, by decide⟩
  simp [JsObject.getProp] at this

/-- C3 (amended): when the current data-source URL is absolute, the change
handler persists a Filter Set, also an empty one; the set holds key `k` with
value `v` iff the last control in document order with identifier `k` has the
non-empty value `v`; no key is stored with an empty value. -/
theorem C3_filter_set (s : FilterState) (u : Url) (hurl : s.ajaxUrl = AjaxUrl.absolute u) :
    ∃ (fs : JsObject) (s' : FilterState), filterChange s = Outcome.done s'
      ∧ s'.filterValuesItem = some (JSON_stringify fs)
      ∧ s'.controls = s.controls
      ∧ (∀ k v : String, fs.getProp k = some v ↔
          ∃ pre c post, s.controls = pre ++ c :: post ∧ c.id = k ∧ c.value = v ∧ v ≠ ""
            ∧ ∀ d ∈ post, d.id ≠ k)
      ∧ (∀ p ∈ fs, p.2 ≠ "")
      ∧ (∀ k : String, fs.getProp k ≠ some "")
      ∧ ((∀ c ∈ s.controls, c.value = "") → fs = []) := by
  refine ⟨(filterEach s.controls (u, [])).2, _, filterChange_absolute s u hurl, rfl, rfl,
    ?_, ?_, ?_, ?_⟩
  · intro k v
    rw [filterEach_getProp]
    constructor
    · intro h
      cases hl : lastValue s.controls k with
      | none => rw [hl] at h; simp [JsObject.getProp] at h
      | some w =>
        rw [hl] at h
        by_cases hw : w = ""
        · simp [hw] at h
        · simp only [ne_eq, hw, not_false_eq_true, if_true, Option.some.injEq] at h
          subst h
          obtain ⟨pre, c, post, hcs, hid, hval, hpost⟩ := (lastValue_eq_some_iff _ _ _).mp hl
          exact ⟨pre, c, post, hcs, hid, hval, hw, hpost⟩
    · rintro ⟨pre, c, post, hcs, hid, hval, hv, hpost⟩
      rw [(lastValue_eq_some_iff _ _ _).mpr ⟨pre, c, post, hcs, hid, hval, hpost⟩]
      simp [hv]
  · exact filterEach_values _ _ _ (by simp)
  · intro k hk
    have hlook : List.lookup k (filterEach s.controls (u, [])).2 = some "" := hk
    have hmem := mem_of_lookup hlook
    exact filterEach_values s.controls u [] (by simp) _ hmem rfl
  · exact filterEach_all_empty _ _

/-- Instance of C3: with `status = open` and an empty `region` the Filter Set
has the key `status` only; with every control empty the empty set is persisted. -/
theorem C3_filter_set_witness :
    (∃ (fs : JsObject) (s' : FilterState),
      filterChange
          ⟨[⟨"status", "open", [], none⟩, ⟨"region", "", [], none⟩],
            AjaxUrl.absolute ⟨"https://example.test/data", []⟩, none, []⟩ = Outcome.done s'
      ∧ s'.filterValuesItem = some (JSON_stringify fs)
      ∧ fs.getProp "status" = some "open")
    ∧ (∃ s' : FilterState,
      filterChange
          ⟨[⟨"status", "", [], none⟩, ⟨"region", "", [], none⟩],
            AjaxUrl.absolute ⟨"https://example.test/data", []⟩, none, []⟩ = Outcome.done s'
      ∧ s'.filterValuesItem = some (JSON_stringify [])) := by
  constructor
  · obtain ⟨fs, s', hrun, hitem, -, hiff, -⟩ :=
      C3_filter_set
        ⟨[⟨"status", "open", [], none⟩, ⟨"region", "", [], none⟩],
          AjaxUrl.absolute ⟨"https://example.test/data", []⟩, none, []⟩
        ⟨"https://example.test/data", []⟩ rfl
    exact ⟨fs, s', hrun, hitem, (hiff "status" "open").mpr
      ⟨[], ⟨"status", "open", [], none⟩, [⟨"region", "", [], none⟩], rfl, rfl, rfl, by decide,
        by decide⟩⟩
  · obtain ⟨fs, s', hrun, hitem, -, -, -, -, hempty⟩ :=
      C3_filter_set
        ⟨[⟨"status", "", [], none⟩, ⟨"region", "", [], none⟩],
          AjaxUrl.absolute ⟨"https://example.test/data", []⟩, none, []⟩
        ⟨"https://example.test/data", []⟩ rfl
    rw [hempty (by decide)] at hitem
    exact ⟨s', hrun, hitem⟩

/-- C4 (counterexample): the current URL carries a parameter `tenant=7` and one
control `status` holds `open`.  The URL passed to `load` has the parameters
`tenant=7` and `status=open`, while the Filter Set has the key `status` only. -/
theorem C4_counterexample :
    ∃ s', filterChange
        ⟨[⟨"status", "open", [], none⟩],
          AjaxUrl.absolute ⟨"https://example.test/data", [("tenant", "7")]⟩, none, []⟩
        = Outcome.done s'
    ∧ s'.log
      = [FilterEffect.ajaxLoad
          ⟨"https://example.test/data", [("tenant", "7"), ("status", "open")]⟩]
    ∧ s'.filterValuesItem = some (JSON_stringify [("status", "open")])
    ∧ ¬ (∀ k v : String,
          (k, v) ∈ [("tenant", "7"), ("status", "open")] ↔
            JsObject.getProp [("status", "open")] k = some v) := by
  refine ⟨_, rfl, by decide, by decide, ?_⟩
  intro h
  have := (h "tenant" "7").mp (by simp)
  revert this
  decide

/-- C4 (amended): for an absolute current URL, the URL the change handler passes
to `table.ajax.url(...).load()` is the current URL with its query rewritten so
that, for every key that is the identifier of a control, it has exactly one
parameter of that key when the Filter Set computed in the same run holds the
key, with the same value, and none otherwise; parameters of the current URL
whose key is no control's identifier are kept as they are. -/
theorem C4_query_parameters (s : FilterState) (u : Url)
    (hurl : s.ajaxUrl = AjaxUrl.absolute u) :
    ∃ (fs : JsObject) (newUrl : Url) (s' : FilterState),
      filterChange s = Outcome.done s'
      ∧ s'.filterValuesItem = some (JSON_stringify fs)
      ∧ s'.log = s.log ++ [FilterEffect.ajaxLoad newUrl]
      ∧ s'.ajaxUrl = AjaxUrl.absolute newUrl
      ∧ newUrl.base = u.base
      ∧ (∀ k v : String, (k, v) ∈ newUrl.searchParams ↔
          (fs.getProp k = some v
            ∨ ((∀ c ∈ s.controls, c.id ≠ k) ∧ (k, v) ∈ u.searchParams)))
      ∧ (∀ k : String, (∃ c ∈ s.controls, c.id = k) →
          newUrl.searchParams.filter (fun p => decide (p.1 = k))
            = match fs.getProp k with
              | some v => [(k, v)]
              | none => [])
      ∧ (∀ k : String, (∀ c ∈ s.controls, c.id ≠ k) →
          newUrl.searchParams.filter (fun p => decide (p.1 = k))
            = u.searchParams.filter (fun p => decide (p.1 = k))) := by
  refine ⟨(filterEach s.controls (u, [])).2, (filterEach s.controls (u, [])).1, _,
    filterChange_absolute s u hurl, rfl, rfl, rfl, filterEach_base _ _ _, ?_, ?_, ?_⟩
  · intro k v
    rw [mem_iff_mem_filter_key, filterEach_params, filterEach_getProp]
    cases hl : lastValue s.controls k with
    | none =>
      have hnone := (lastValue_eq_none_iff _ _).mp hl
      rw [← mem_iff_mem_filter_key]
      constructor
      · intro h
        exact Or.inr ⟨hnone, h⟩
      · rintro (h | h)
        · simp [JsObject.getProp] at h
        · exact h.2
    | some w =>
      obtain ⟨pre, c, post, hcs, hid, -, -⟩ := (lastValue_eq_some_iff _ _ _).mp hl
      have hmem : ¬ ∀ c ∈ s.controls, c.id ≠ k := fun h => h c (by simp [hcs]) hid
      by_cases hw : w = ""
      · simp [hw, hmem]
      · simp only [ne_eq, hw, not_false_eq_true, if_true, List.mem_singleton, Prod.mk.injEq,
          true_and, Option.some.injEq, hmem, false_and, or_false]
        exact eq_comm
  · rintro k ⟨c, hc, hid⟩
    rw [filterEach_params, filterEach_getProp]
    cases hl : lastValue s.controls k with
    | none => exact absurd hid ((lastValue_eq_none_iff _ _).mp hl c hc)
    | some w =>
      by_cases hw : w = ""
      · simp [hw]
      · simp [hw]
  · intro k hk
    rw [filterEach_params, (lastValue_eq_none_iff _ _).mpr hk]

/-- Instance of C4: the current URL carries `tenant=7` and an outdated
`status=closed`; the control `status` holds `open` and `region` is empty. -/
theorem C4_query_parameters_witness :
    ∃ (newUrl : Url) (s' : FilterState),
      filterChange
          ⟨[⟨"status", "open", [], none⟩, ⟨"region", "", [], none⟩],
            AjaxUrl.absolute
              ⟨"https://example.test/data", [("tenant", "7"), ("status", "closed")]⟩, none,
            []⟩ = Outcome.done s'
      ∧ s'.ajaxUrl = AjaxUrl.absolute newUrl
      ∧ newUrl.searchParams.filter (fun p => decide (p.1 = "tenant")) = [("tenant", "7")]
      ∧ (("status", "open") ∈ newUrl.searchParams
          ↔ JsObject.getProp [("status", "open")] "status" = some "open") := by
  obtain ⟨fs, newUrl, s', hrun, hitem, -, hurl, -, hmem, -, hkeep⟩ :=
    C4_query_parameters
      ⟨[⟨"status", "open", [], none⟩, ⟨"region", "", [], none⟩],
        AjaxUrl.absolute
          ⟨"https://example.test/data", [("tenant", "7"), ("status", "closed")]⟩, none, []⟩
      ⟨"https://example.test/data", [("tenant", "7"), ("status", "closed")]⟩ rfl
  have hs' : s' = ⟨[⟨"status", "open", [], none⟩, ⟨"region", "", [], none⟩],
      AjaxUrl.absolute ⟨"https://example.test/data", [("tenant", "7"), ("status", "open")]⟩,
      some (JSON_stringify [("status", "open")]),
      [FilterEffect.ajaxLoad
        ⟨"https://example.test/data", [("tenant", "7"), ("status", "open")]⟩]⟩ := by
    have h : Outcome.done _ = Outcome.done s' := hrun
    injection h with h
    exact h.symm
  subst hs'
  refine ⟨newUrl, _, hrun, hurl, ?_, ?_⟩
  · rw [hkeep "tenant" (by decide)]
    decide
  · injection hurl with hurl
    subst hurl
    constructor
    · intro _; decide
    · intro _; decide

/-! ## Filter synchroniser: rehydration -/

theorem setVal_id (c : FilterControl) (v : String) : (c.setVal v).id = c.id := by
  unfold FilterControl.setVal
  cases c.options with
  | none => rfl
  | some vs => dsimp only; split <;> rfl

theorem setVal_accepts (c : FilterControl) (v : String) (h : c.accepts v = true) :
    c.setVal v = { c with value := v } := by
  unfold FilterControl.setVal
  unfold FilterControl.accepts at h
  cases hopt : c.options with
  | none => rfl
  | some vs =>
    rw [hopt] at h
    simp only at h
    simp only
    rw [if_pos h]

theorem markOption_fields (c : FilterControl) (saved : String) (s : FilterState) :
    (markOption c saved s).controls = s.controls
    ∧ (markOption c saved s).ajaxUrl = s.ajaxUrl
    ∧ (markOption c saved s).filterValuesItem = s.filterValuesItem := by
  exact ⟨rfl, rfl, rfl⟩

theorem widgetReloads_fields (c : FilterControl) (s : FilterState) :
    (widgetReloads c s).controls = s.controls
    ∧ (widgetReloads c s).ajaxUrl = s.ajaxUrl
    ∧ (widgetReloads c s).filterValuesItem = s.filterValuesItem := by
  unfold widgetReloads
  dsimp only
  split <;> split <;> exact ⟨rfl, rfl, rfl⟩

theorem rehydrateControl_done (done : List FilterControl) (c : FilterControl)
    (rest : List FilterControl) (saved : String) (s : FilterState) (u : Url)
    (hsel : selectorCompiles saved = true) (hurl : s.ajaxUrl = AjaxUrl.absolute u) :
    ∃ s', rehydrateControl done c rest saved s = Outcome.done s'
      ∧ s'.controls = done ++ c.setVal saved :: rest
      ∧ s'.filterValuesItem
          = some (JSON_stringify (filterEach (done ++ c.setVal saved :: rest) (u, [])).2)
      ∧ ∃ u', s'.ajaxUrl = AjaxUrl.absolute u' := by
  unfold rehydrateControl
  simp only [hsel, Bool.not_true, Bool.false_eq_true, if_false]
  obtain ⟨h1, h2, h3⟩ :=
    markOption_fields c saved { s with controls := done ++ c.setVal saved :: rest }
  have hu : (markOption c saved
      { s with controls := done ++ c.setVal saved :: rest }).ajaxUrl = AjaxUrl.absolute u :=
    h2.trans hurl
  rw [filterChange_absolute _ u hu]
  simp only
  obtain ⟨w1, w2, w3⟩ := widgetReloads_fields c
    { markOption c saved { s with controls := done ++ c.setVal saved :: rest } with
      filterValuesItem := some (JSON_stringify
        (filterEach (markOption c saved
          { s with controls := done ++ c.setVal saved :: rest }).controls (u, [])).2)
      ajaxUrl := AjaxUrl.absolute
        (filterEach (markOption c saved
          { s with controls := done ++ c.setVal saved :: rest }).controls (u, [])).1
      log := (markOption c saved { s with controls := done ++ c.setVal saved :: rest }).log
        ++ [FilterEffect.ajaxLoad
          (filterEach (markOption c saved
            { s with controls := done ++ c.setVal saved :: rest }).controls (u, [])).1] }
  refine ⟨_, rfl, ?_, ?_, ?_⟩
  · rw [w1]; exact h1
  · rw [w3]; simp only [h1]
  · rw [w2]; exact ⟨_, rfl⟩

theorem restoreControl_id (saved : List (String × SavedProp)) (c : FilterControl) :
    (restoreControl saved c).id = c.id := by
  unfold restoreControl
  cases List.lookup c.id saved with
  | none => rfl
  | some p =>
    dsimp only
    split
    · exact setVal_id c p.text
    · rfl

theorem restoreControl_not_restored (saved : List (String × SavedProp)) (c : FilterControl)
    (h : isRestored saved c = false) : restoreControl saved c = c := by
  unfold restoreControl
  unfold isRestored at h
  cases hg : List.lookup c.id saved with
  | none => rfl
  | some p =>
    rw [hg] at h
    simp only at h
    simp [h]

theorem map_restoreControl_not_restored (saved : List (String × SavedProp))
    (cs : List FilterControl) (h : ∀ c ∈ cs, isRestored saved c = false) :
    cs.map (restoreControl saved) = cs := by
  induction cs with
  | nil => rfl
  | cons c rest ih =>
    rw [List.map_cons, restoreControl_not_restored saved c (h c (List.mem_cons_self _ _)),
      ih (fun d hd => h d (List.mem_cons_of_mem _ hd))]

theorem rehydrateEach_not_restored (saved : List (String × SavedProp))
    (done todo : List FilterControl) (s : FilterState)
    (h : ∀ c ∈ todo, isRestored saved c = false) :
    rehydrateEach saved done todo s = Outcome.done s := by
  induction todo generalizing done with
  | nil => rfl
  | cons c rest ih =>
    have hc := h c (List.mem_cons_self _ _)
    have hrest : ∀ d ∈ rest, isRestored saved d = false :=
      fun d hd => h d (List.mem_cons_of_mem _ hd)
    unfold isRestored at hc
    cases hg : List.lookup c.id saved with
    | none => simp only [rehydrateEach, hg]; exact ih _ hrest
    | some p =>
      rw [hg] at hc
      simp only at hc
      simp only [rehydrateEach, hg, hc, Bool.false_eq_true, if_false]
      exact ih _ hrest

theorem rehydrateEach_restored (saved : List (String × SavedProp))
    (done todo : List FilterControl) (s : FilterState) (u : Url)
    (hurl : s.ajaxUrl = AjaxUrl.absolute u)
    (hsel : ∀ c ∈ todo, ∀ p, List.lookup c.id saved = some p → p.truthy = true →
      selectorCompiles p.text = true)
    (h : ∃ c ∈ todo, isRestored saved c = true) :
    ∃ s', rehydrateEach saved done todo s = Outcome.done s'
      ∧ s'.controls = done ++ todo.map (restoreControl saved)
      ∧ (∃ u' : Url, s'.filterValuesItem
          = some (JSON_stringify (filterEach (done ++ todo.map (restoreControl saved)) (u', [])).2))
      ∧ ∃ u'', s'.ajaxUrl = AjaxUrl.absolute u'' := by
  induction todo generalizing done s u with
  | nil => simp at h
  | cons c rest ih =>
    have hselrest : ∀ d ∈ rest, ∀ p, List.lookup d.id saved = some p → p.truthy = true →
        selectorCompiles p.text = true :=
      fun d hd => hsel d (List.mem_cons_of_mem _ hd)
    by_cases hrest : ∃ d ∈ rest, isRestored saved d = true
    · -- a later control is restored: the induction hypothesis decides
      cases hg : List.lookup c.id saved with
      | none =>
        have hc : restoreControl saved c = c := by simp [restoreControl, hg]
        simp only [rehydrateEach, hg, List.map_cons, hc]
        have := ih (done ++ [c]) s u hurl hselrest hrest
        simpa [List.append_assoc] using this
      | some p =>
        cases hp : p.truthy with
        | false =>
          have hc : restoreControl saved c = c := by simp [restoreControl, hg, hp]
          simp only [rehydrateEach, hg, hp, Bool.false_eq_true, if_false, List.map_cons, hc]
          have := ih (done ++ [c]) s u hurl hselrest hrest
          simpa [List.append_assoc] using this
        | true =>
          have hc : restoreControl saved c = c.setVal p.text := by
            simp [restoreControl, hg, hp]
          obtain ⟨s1, hrun, hcontrols, -, u1, hu1⟩ :=
            rehydrateControl_done done c rest p.text s u
              (hsel c (List.mem_cons_self _ _) p hg hp) hurl
          simp only [rehydrateEach, hg, hp, if_true, List.map_cons, hc, hrun]
          have := ih (done ++ [c.setVal p.text]) s1 u1 hu1 hselrest hrest
          simpa [List.append_assoc] using this
    · -- the control itself is the last one restored
      have hnone : ∀ d ∈ rest, isRestored saved d = false := by
        intro d hd
        cases hr : isRestored saved d with
        | false => rfl
        | true => exact absurd ⟨d, hd, hr⟩ hrest
      obtain ⟨d, hd, hdr⟩ := h
      have hcr : isRestored saved c = true := by
        rcases List.mem_cons.mp hd with hd | hd
        · subst hd; exact hdr
        · rw [hnone d hd] at hdr; cases hdr
      unfold isRestored at hcr
      cases hg : List.lookup c.id saved with
      | none => rw [hg] at hcr; cases hcr
      | some p =>
        rw [hg] at hcr
        simp only at hcr
        have hc : restoreControl saved c = c.setVal p.text := by
          simp [restoreControl, hg, hcr]
        obtain ⟨s1, hrun, hcontrols, hitem, hu1⟩ :=
          rehydrateControl_done done c rest p.text s u
            (hsel c (List.mem_cons_self _ _) p hg hcr) hurl
        simp only [rehydrateEach, hg, hcr, if_true, List.map_cons, hc, hrun]
        rw [rehydrateEach_not_restored saved _ rest _ hnone,
          map_restoreControl_not_restored saved rest hnone]
        exact ⟨s1, rfl, hcontrols, ⟨u, hitem⟩, hu1⟩

/-- Under the two conditions that keep line 106 and line 78 from throwing, the
rehydration loop runs to its end and leaves every control as `restoreControl`
describes. -/
theorem rehydrateEach_done (saved : List (String × SavedProp)) (cs : List FilterControl)
    (s : FilterState) (u : Url) (hcs : s.controls = cs)
    (hurl : s.ajaxUrl = AjaxUrl.absolute u)
    (hsel : ∀ c ∈ cs, ∀ p, List.lookup c.id saved = some p → p.truthy = true →
      selectorCompiles p.text = true) :
    ∃ s', rehydrateEach saved [] cs s = Outcome.done s'
      ∧ s'.controls = cs.map (restoreControl saved) := by
  by_cases hex : ∃ c ∈ cs, isRestored saved c = true
  · obtain ⟨s', hrun, hcontrols, -⟩ := rehydrateEach_restored saved [] cs s u hurl hsel hex
    exact ⟨s', hrun, by simpa using hcontrols⟩
  · have hnone : ∀ d ∈ cs, isRestored saved d = false := by
      intro d hd
      cases hr : isRestored saved d with
      | false => rfl
      | true => exact absurd ⟨d, hd, hr⟩ hex
    exact ⟨s, rehydrateEach_not_restored saved [] cs s hnone, by
      rw [map_restoreControl_not_restored saved cs hnone, hcs]⟩

theorem lastValue_of_nodup (cs : List FilterControl)
    (hnodup : (cs.map (fun c => c.id)).Nodup) (c : FilterControl) (hc : c ∈ cs) :
    lastValue cs c.id = some c.value := by
  obtain ⟨pre, post, hcs⟩ := List.append_of_mem hc
  refine (lastValue_eq_some_iff cs c.id c.value).mpr ⟨pre, c, post, hcs, rfl, rfl, ?_⟩
  intro d hd hid
  rw [hcs, List.map_append, List.map_cons] at hnodup
  have h2 := (List.nodup_append.mp hnodup).2.1
  have h3 := (List.nodup_cons.mp h2).1
  exact h3 (hid ▸ List.mem_map_of_mem (fun c => c.id) hd)

/-- For controls with distinct identifiers the Filter Set computed by the change
handler holds key `k` with value `v` iff some control has identifier `k` and the
non-empty value `v`. -/
theorem filter_set_of_distinct (cs : List FilterControl) (u : Url)
    (hdistinct : (cs.map (fun c => c.id)).Nodup) (k v : String) :
    (filterEach cs (u, [])).2.getProp k = some v ↔
      ∃ c ∈ cs, c.id = k ∧ c.value = v ∧ v ≠ "" := by
  rw [filterEach_getProp]
  constructor
  · intro h
    cases hl : lastValue cs k with
    | none => rw [hl] at h; simp [JsObject.getProp] at h
    | some w =>
      rw [hl] at h
      by_cases hw : w = ""
      · simp [hw] at h
      · simp only [ne_eq, hw, not_false_eq_true, if_true, Option.some.injEq] at h
        subst h
        obtain ⟨pre, c, post, hcs, hid, hval, -⟩ := (lastValue_eq_some_iff _ _ _).mp hl
        exact ⟨c, by simp [hcs], hid, hval, hw⟩
  · rintro ⟨c, hc, hid, hval, hv⟩
    have := lastValue_of_nodup cs hdistinct c hc
    rw [hid, hval] at this
    rw [this]
    simp [hv]

theorem filterEach_source (cs : List FilterControl) (u : Url) (k v : String)
    (h : (filterEach cs (u, [])).2.getProp k = some v) :
    ∃ c ∈ cs, c.id = k ∧ c.value = v ∧ v ≠ "" := by
  rw [filterEach_getProp] at h
  cases hl : lastValue cs k with
  | none => rw [hl] at h; simp [JsObject.getProp] at h
  | some w =>
    rw [hl] at h
    by_cases hw : w = ""
    · simp [hw] at h
    · simp only [ne_eq, hw, not_false_eq_true, if_true, Option.some.injEq] at h
      subst h
      obtain ⟨pre, c, post, hcs, hid, hval, -⟩ := (lastValue_eq_some_iff _ _ _).mp hl
      exact ⟨c, by simp [hcs], hid, hval, hw⟩

theorem lookup_stringify (fs : JsObject) (k : String) :
    List.lookup k
        (fs.map (fun p => (p.1, ({ truthy := decide (p.2 ≠ ""), text := p.2 } : SavedProp))))
      = (fs.getProp k).map (fun v => { truthy := decide (v ≠ ""), text := v }) := by
  unfold JsObject.getProp
  induction fs with
  | nil => rfl
  | cons e rest ih =>
    obtain ⟨a, b⟩ := e
    by_cases ha : a = k
    · subst ha
      rw [List.map_cons, lookup_cons_self, lookup_cons_self]
      rfl
    · rw [List.map_cons, lookup_cons_ne _ _ ha, lookup_cons_ne _ _ ha]
      exact ih

theorem lastValue_map_uniform (f : FilterControl → FilterControl) (g : String → String)
    (fresh : List FilterControl) (hid : ∀ c, (f c).id = c.id)
    (hval : ∀ c ∈ fresh, (f c).value = g c.id) (k : String) :
    lastValue (fresh.map f) k = if (∃ c ∈ fresh, c.id = k) then some (g k) else none := by
  induction fresh with
  | nil => simp [lastValue]
  | cons c rest ih =>
    have ih' := ih (fun d hd => hval d (List.mem_cons_of_mem _ hd))
    have hc := hval c (List.mem_cons_self _ _)
    simp only [List.map_cons, lastValue, ih']
    by_cases hrest : ∃ d ∈ rest, d.id = k
    · have hex : ∃ d ∈ c :: rest, d.id = k := by
        obtain ⟨d, hd, hdk⟩ := hrest
        exact ⟨d, List.mem_cons_of_mem _ hd, hdk⟩
      simp only [hrest, hex, if_true]
    · simp only [hrest, if_false, hid]
      by_cases hck : c.id = k
      · have hex : ∃ d ∈ c :: rest, d.id = k := ⟨c, List.mem_cons_self _ _, hck⟩
        simp only [hck, hex, if_true, hc]
      · have hex : ¬ ∃ d ∈ c :: rest, d.id = k := by
          rintro ⟨d, hd, hdk⟩
          rcases List.mem_cons.mp hd with hd | hd
          · subst hd; exact hck hdk
          · exact hrest ⟨d, hd, hdk⟩
        simp only [hck, hex, if_false]

/-- C7 (counterexample), four runs with distinct identifiers and controls that
start empty.  First: `{a: x}` is persisted and the page is reloaded with the
single control `b`; nothing is restored, no change handler runs, and the slot
still holds `{a: x}`, which is not the original set restricted to the controls
present.  Second: the stored value is `a"b`; the rehydration throws at the
selector of line 106, after `val()` and before any change handler has run.  Third: the control present is a `select` without an
option for the stored value `z`; it ends without a value and the slot ends
empty.  Fourth: the table starts from the relative URL `/your-endpoint`; the
change handler triggered by the rehydration throws. -/
theorem C7_counterexample :
    (∃ s1 s', filterChange
          ⟨[⟨"a", "x", [], none⟩], AjaxUrl.absolute ⟨"https://example.test/data", []⟩, none, []⟩
          = Outcome.done s1
      ∧ applyCustomFilters
          (pageReload s1 [⟨"b", "", [], none⟩]
            (AjaxUrl.absolute ⟨"https://example.test/data", []⟩)) = Outcome.done s'
      ∧ s'.filterValuesItem = some (JSON_stringify [("a", "x")])
      ∧ ¬ (∀ k v : String, JsObject.getProp [("a", "x")] k = some v ↔
            ((∃ c ∈ [(⟨"b", "", [], none⟩ : FilterControl)], c.id = k)
              ∧ JsObject.getProp [("a", "x")] k = some v)))
    ∧ (∃ s1 s', filterChange
          ⟨[⟨"q", "a\"b", [], none⟩], AjaxUrl.absolute ⟨"https://example.test/data", []⟩, none,
            []⟩ = Outcome.done s1
      ∧ applyCustomFilters
          (pageReload s1 [⟨"q", "", [], none⟩]
            (AjaxUrl.absolute ⟨"https://example.test/data", []⟩))
        = Outcome.thrown (JsError.selectorError "option[value=\"a\"b\"]") s'
      ∧ s'.controls = [⟨"q", "a\"b", [], none⟩]
      ∧ s'.log = [])
    ∧ (∃ s1 s', filterChange
          ⟨[⟨"q", "z", [], none⟩], AjaxUrl.absolute ⟨"https://example.test/data", []⟩, none, []⟩
          = Outcome.done s1
      ∧ applyCustomFilters
          (pageReload s1 [⟨"q", "", [], some ["x", "y"]⟩]
            (AjaxUrl.absolute ⟨"https://example.test/data", []⟩)) = Outcome.done s'
      ∧ s'.controls = [⟨"q", "", [], some ["x", "y"]⟩]
      ∧ s'.filterValuesItem = some (JSON_stringify []))
    ∧ (∃ s1 s', filterChange
          ⟨[⟨"q", "z", [], none⟩], AjaxUrl.absolute ⟨"https://example.test/data", []⟩, none, []⟩
          = Outcome.done s1
      ∧ applyCustomFilters
          (pageReload s1 [⟨"q", "", [], none⟩] (AjaxUrl.relative "/your-endpoint"))
        = Outcome.thrown (JsError.typeError "/your-endpoint") s') := by
  refine ⟨⟨_, _, rfl, rfl, by decide, ?_⟩, ⟨_, _, rfl, rfl, by decide, by decide⟩,
    ⟨_, _, rfl, rfl, by decide, by decide⟩, ⟨_, _, rfl, rfl⟩⟩
  intro h
  have h1 := (h "a" "x").mp (by decide)
  obtain ⟨⟨c, hc, hid⟩, -⟩ := h1
  simp only [List.mem_singleton] at hc
  subst hc
  revert hid
  decide

/-- C7 (amended): let the change handler persist the Filter Set of controls with
distinct identifiers, and let `applyCustomFilters` be initialised again after a
page reload, the table starting from an absolute URL, over controls that start
empty; let each value stored for a control present be one that line 106 can
splice into its selector, and let each control present take the value stored for
it (a text input, or a `select` with that option).  Then the initialisation completes without error,
whichever controls are present.  Every control present whose identifier has a
stored value ends with that value, every other control stays empty, and so each
control present ends with the value of the original control of the same
identifier.  When at least one control present has a stored value, the storage
slot ends holding the original Filter Set restricted to the controls present;
when none has, no change handler runs and the slot keeps the original Filter Set
unchanged. -/
theorem C7_round_trip (s s1 : FilterState) (fresh : List FilterControl) (u : Url)
    (hdistinct : (s.controls.map (fun c => c.id)).Nodup)
    (hpersist : filterChange s = Outcome.done s1)
    (hfresh : ∀ c ∈ fresh, c.value = "")
    (hsel : ∀ c' ∈ fresh, ∀ c ∈ s.controls, c.id = c'.id → selectorCompiles c.value = true)
    (haccept : ∀ c' ∈ fresh, ∀ c ∈ s.controls, c.id = c'.id → c.value ≠ "" →
      c'.accepts c.value = true) :
    ∃ (fs : JsObject) (s' : FilterState),
      s1.filterValuesItem = some (JSON_stringify fs)
      ∧ applyCustomFilters (pageReload s1 fresh (AjaxUrl.absolute u)) = Outcome.done s'
      ∧ s'.controls.map (fun c => c.id) = fresh.map (fun c => c.id)
      ∧ (∀ c' ∈ s'.controls, ∀ v, fs.getProp c'.id = some v → c'.value = v)
      ∧ (∀ c' ∈ s'.controls, fs.getProp c'.id = none → c'.value = "")
      ∧ (∀ c' ∈ s'.controls, ∀ c ∈ s.controls, c.id = c'.id → c'.value = c.value)
      ∧ ((∃ c' ∈ fresh, ∃ v, fs.getProp c'.id = some v) →
          ∃ fs' : JsObject, s'.filterValuesItem = some (JSON_stringify fs')
            ∧ ∀ k v : String, fs'.getProp k = some v ↔
                ((∃ c' ∈ fresh, c'.id = k) ∧ fs.getProp k = some v))
      ∧ ((¬ ∃ c' ∈ fresh, ∃ v, fs.getProp c'.id = some v) →
          s'.filterValuesItem = some (JSON_stringify fs) ∧ s'.controls = fresh) := by
  -- the handler persisted, so the URL it started from was absolute
  cases hurl0 : s.ajaxUrl with
  | relative text =>
    rw [filterChange_relative s text hurl0] at hpersist
    cases hpersist
  | absolute u0 =>
  rw [filterChange_absolute s u0 hurl0] at hpersist
  injection hpersist with hs1
  subst hs1
  -- the original Filter Set, its stored form and the state after the reload
  let fs : JsObject := (filterEach s.controls (u0, [])).2
  let saved : List (String × SavedProp) :=
    fs.map (fun p => (p.1, ({ truthy := decide (p.2 ≠ ""), text := p.2 } : SavedProp)))
  have hfsval : ∀ p ∈ fs, p.2 ≠ "" := filterEach_values _ _ _ (by simp)
  have hfsne : ∀ k, fs.getProp k ≠ some "" := fun k hk => hfsval _ (mem_of_lookup hk) rfl
  have hlook : ∀ k, List.lookup k saved
      = (fs.getProp k).map (fun v => ({ truthy := decide (v ≠ ""), text := v } : SavedProp)) :=
    fun k => lookup_stringify fs k
  have hrestored : ∀ c, isRestored saved c = true ↔ ∃ v, fs.getProp c.id = some v := by
    intro c
    unfold isRestored
    rw [hlook]
    cases hg : fs.getProp c.id with
    | none => simp
    | some v =>
      have hv : ¬ v = "" := fun e => hfsne c.id (e ▸ hg)
      simp [hv]
  -- what the loop does to a control present
  have hrestore : ∀ c' ∈ fresh,
      (restoreControl saved c').value = (fs.getProp c'.id).getD "" := by
    intro c' hc'
    unfold restoreControl
    rw [hlook]
    cases hg : fs.getProp c'.id with
    | none => simpa using hfresh c' hc'
    | some v =>
      have hv : ¬ v = "" := fun e => hfsne c'.id (e ▸ hg)
      obtain ⟨c, hc, hid, hval, -⟩ := filterEach_source s.controls u0 c'.id v hg
      have hacc : c'.accepts v = true := by
        have := haccept c' hc' c hc hid (by rw [hval]; exact hv)
        rwa [hval] at this
      simp [hv, setVal_accepts c' v hacc]
  have hselfresh : ∀ c' ∈ fresh, ∀ p, List.lookup c'.id saved = some p → p.truthy = true →
      selectorCompiles p.text = true := by
    intro c' hc' p hp _
    rw [hlook] at hp
    cases hg : fs.getProp c'.id with
    | none => rw [hg] at hp; cases hp
    | some v =>
      rw [hg] at hp
      simp only [Option.map_some', Option.some.injEq] at hp
      subst hp
      obtain ⟨c, hc, hid, hval, -⟩ := filterEach_source s.controls u0 c'.id v hg
      have := hsel c' hc' c hc hid
      rwa [hval] at this
  let r : FilterState := pageReload
    { s with
      filterValuesItem := some (JSON_stringify fs)
      ajaxUrl := AjaxUrl.absolute (filterEach s.controls (u0, [])).1
      log := s.log ++ [FilterEffect.ajaxLoad (filterEach s.controls (u0, [])).1] }
    fresh (AjaxUrl.absolute u)
  have hrun : applyCustomFilters r = rehydrateEach saved [] fresh r := rfl
  obtain ⟨s', hs', hcontrols⟩ := rehydrateEach_done saved fresh r u rfl rfl hselfresh
  have hstored : ∀ c' ∈ s'.controls, ∀ v, fs.getProp c'.id = some v → c'.value = v := by
    intro c' hc' v hv
    rw [hcontrols] at hc'
    obtain ⟨c0, hc0, rfl⟩ := List.mem_map.mp hc'
    rw [restoreControl_id] at hv
    rw [hrestore c0 hc0, hv]
    rfl
  have hempty : ∀ c' ∈ s'.controls, fs.getProp c'.id = none → c'.value = "" := by
    intro c' hc' hv
    rw [hcontrols] at hc'
    obtain ⟨c0, hc0, rfl⟩ := List.mem_map.mp hc'
    rw [restoreControl_id] at hv
    rw [hrestore c0 hc0, hv]
    rfl
  refine ⟨fs, s', rfl, hrun.trans hs', ?_, hstored, hempty, ?_, ?_, ?_⟩
  · rw [hcontrols, List.map_map]
    apply List.map_congr_left
    intro c _
    exact restoreControl_id saved c
  · intro c' hc' c hc hid
    have hget : fs.getProp c.id = if c.value ≠ "" then some c.value else none := by
      show (filterEach s.controls (u0, [])).2.getProp c.id = _
      rw [filterEach_getProp, lastValue_of_nodup s.controls hdistinct c hc]
    by_cases hv : c.value = ""
    · rw [hv]
      apply hempty c' hc'
      rw [← hid, hget]
      simp [hv]
    · apply hstored c' hc'
      rw [← hid, hget]
      simp [hv]
  · rintro ⟨c0, hc0, v, hv⟩
    have hex : ∃ c ∈ fresh, isRestored saved c = true := ⟨c0, hc0, (hrestored c0).mpr ⟨v, hv⟩⟩
    obtain ⟨s'', hs'', -, ⟨u', hitem⟩, -⟩ :=
      rehydrateEach_restored saved [] fresh r u rfl hselfresh hex
    have hsame : s'' = s' := by
      have h := hs''.symm.trans hs'
      injection h
    subst hsame
    refine ⟨_, hitem, ?_⟩
    intro k w
    rw [List.nil_append, filterEach_getProp,
      lastValue_map_uniform (restoreControl saved) (fun k => (fs.getProp k).getD "") fresh
        (restoreControl_id saved) hrestore k]
    by_cases hk : ∃ c ∈ fresh, c.id = k
    · simp only [hk, if_true, true_and]
      cases hg : fs.getProp k with
      | none => simp
      | some x =>
        have hx : ¬ x = "" := fun e => hfsne k (e ▸ hg)
        simp [hx]
    · simp only [hk, if_false, false_and]
      simp [JsObject.getProp]
  · intro hno
    have hnone : ∀ d ∈ fresh, isRestored saved d = false := by
      intro d hd
      cases hr : isRestored saved d with
      | false => rfl
      | true => exact absurd ⟨d, hd, (hrestored d).mp hr⟩ hno
    have h := (rehydrateEach_not_restored saved [] fresh r hnone).symm.trans hs'
    injection h with h
    subst h
    exact ⟨rfl, rfl⟩

/-- Instance of C7: the controls `status = open`, `region` (empty) and
`owner = kim` are persisted, and the page is reloaded with a `select` for
`status` and a text input for `region` only. -/
theorem C7_round_trip_witness :
    (([⟨"status", "open", [], none⟩, ⟨"region", "", [], none⟩,
        ⟨"owner", "kim", ["select2"], none⟩] : List FilterControl).map (fun c => c.id)).Nodup
    ∧ (∀ c ∈ ([⟨"status", "", [], some ["", "open", "closed"]⟩, ⟨"region", "", [], none⟩] : List FilterControl),
        c.value = "")
    ∧ (∀ c' ∈ ([⟨"status", "", [], some ["", "open", "closed"]⟩, ⟨"region", "", [], none⟩] : List FilterControl),
        ∀ c ∈ ([⟨"status", "open", [], none⟩, ⟨"region", "", [], none⟩,
        ⟨"owner", "kim", ["select2"], none⟩] : List FilterControl), c.id = c'.id →
          selectorCompiles c.value = true)
    ∧ (∀ c' ∈ ([⟨"status", "", [], some ["", "open", "closed"]⟩, ⟨"region", "", [], none⟩] : List FilterControl),
        ∀ c ∈ ([⟨"status", "open", [], none⟩, ⟨"region", "", [], none⟩,
        ⟨"owner", "kim", ["select2"], none⟩] : List FilterControl), c.id = c'.id → c.value ≠ "" →
          c'.accepts c.value = true)
    ∧ ∃ s1 : FilterState,
      filterChange
        ⟨[⟨"status", "open", [], none⟩, ⟨"region", "", [], none⟩,
            ⟨"owner", "kim", ["select2"], none⟩],
          AjaxUrl.absolute ⟨"https://example.test/data", []⟩, none, []⟩ = Outcome.done s1
    ∧ ∃ (fs : JsObject) (s' : FilterState),
      s1.filterValuesItem = some (JSON_stringify fs)
      ∧ applyCustomFilters (pageReload s1
          [⟨"status", "", [], some ["", "open", "closed"]⟩, ⟨"region", "", [], none⟩]
          (AjaxUrl.absolute ⟨"https://example.test/data", []⟩)) = Outcome.done s'
      ∧ s'.controls.map (fun c => c.id)
          = ([⟨"status", "", [], some ["", "open", "closed"]⟩, ⟨"region", "", [], none⟩] :
              List FilterControl).map (fun c => c.id)
      ∧ (∀ c' ∈ s'.controls, ∀ v, fs.getProp c'.id = some v → c'.value = v)
      ∧ (∀ c' ∈ s'.controls, fs.getProp c'.id = none → c'.value = "")
      ∧ (∀ c' ∈ s'.controls,
          ∀ c ∈ ([⟨"status", "open", [], none⟩, ⟨"region", "", [], none⟩,
        ⟨"owner", "kim", ["select2"], none⟩] : List FilterControl), c.id = c'.id → c'.value = c.value)
      ∧ ((∃ c' ∈ ([⟨"status", "", [], some ["", "open", "closed"]⟩, ⟨"region", "", [], none⟩] :
              List FilterControl), ∃ v, fs.getProp c'.id = some v) →
          ∃ fs' : JsObject, s'.filterValuesItem = some (JSON_stringify fs')
            ∧ ∀ k v : String, fs'.getProp k = some v ↔
                ((∃ c' ∈ ([⟨"status", "", [], some ["", "open", "closed"]⟩, ⟨"region", "", [], none⟩] :
                    List FilterControl), c'.id = k)
                  ∧ fs.getProp k = some v))
      ∧ ((¬ ∃ c' ∈ ([⟨"status", "", [], some ["", "open", "closed"]⟩, ⟨"region", "", [], none⟩] :
              List FilterControl), ∃ v, fs.getProp c'.id = some v) →
          s'.filterValuesItem = some (JSON_stringify fs)
            ∧ s'.controls
              = [⟨"status", "", [], some ["", "open", "closed"]⟩, ⟨"region", "", [], none⟩]) :=
  ⟨by decide, by decide, by decide, by decide, _, rfl,
    C7_round_trip
      ⟨[⟨"status", "open", [], none⟩, ⟨"region", "", [], none⟩,
            ⟨"owner", "kim", ["select2"], none⟩],
          AjaxUrl.absolute ⟨"https://example.test/data", []⟩, none, []⟩ _
      [⟨"status", "", [], some ["", "open", "closed"]⟩, ⟨"region", "", [], none⟩] ⟨"https://example.test/data", []⟩
      (by decide) rfl (by decide) (by decide) (by decide)⟩

/-- C9 (counterexample), three runs.  With the text `not json` in the
`'filterValues'` slot the initialisation ends with the `SyntaxError` thrown by
`JSON.parse` instead of completing.  With the valid JSON text of `{q: a"b}` and
a control `q` it ends with the error jQuery throws at the selector of line 106.
With the valid JSON text of `{q: z}`, a control `q` and the relative URL
`/your-endpoint` it ends with the `TypeError` of the change handler that the
rehydration triggers. -/
theorem C9_counterexample :
    (applyCustomFilters
        ⟨[⟨"status", "", [], none⟩], AjaxUrl.absolute ⟨"https://example.test/data", []⟩,
          some (JsonText.invalid "not json"), []⟩
      = Outcome.thrown (JsError.syntaxError "not json")
          ⟨[⟨"status", "", [], none⟩], AjaxUrl.absolute ⟨"https://example.test/data", []⟩,
            some (JsonText.invalid "not json"), []⟩
      ∧ ¬ ∃ s', applyCustomFilters
          ⟨[⟨"status", "", [], none⟩], AjaxUrl.absolute ⟨"https://example.test/data", []⟩,
            some (JsonText.invalid "not json"), []⟩ = Outcome.done s')
    ∧ (∃ s', applyCustomFilters
        ⟨[⟨"q", "", [], none⟩], AjaxUrl.absolute ⟨"https://example.test/data", []⟩,
          some (JSON_stringify [("q", "a\"b")]), []⟩
      = Outcome.thrown (JsError.selectorError "option[value=\"a\"b\"]") s')
    ∧ (∃ s', applyCustomFilters
        ⟨[⟨"q", "", [], none⟩], AjaxUrl.relative "/your-endpoint",
          some (JSON_stringify [("q", "z")]), []⟩
      = Outcome.thrown (JsError.typeError "/your-endpoint") s') := by
  refine ⟨⟨rfl, ?_⟩, ⟨_, rfl⟩, ⟨_, rfl⟩⟩
  rintro ⟨s', h⟩
  cases h

/-- C9 (amended): when the `'filterValues'` slot is absent, or holds valid JSON
whose value is falsy or has no truthy property under the identifier of any
filter control, the initialisation of `applyCustomFilters` completes without
error and changes nothing.  For every valid JSON content it completes without
error when the data-source URL is absolute and line 106 can splice into its
selector each truthy property stored under the identifier of a control.  When the slot holds a string that is not valid
JSON, the `SyntaxError` of `JSON.parse` is not caught and the initialisation ends
with it, before any control is visited. -/
theorem C9_storage_read (s : FilterState) :
    (s.filterValuesItem = none → applyCustomFilters s = Outcome.done s)
    ∧ (∀ raw, s.filterValuesItem = some (JsonText.invalid raw) →
        applyCustomFilters s = Outcome.thrown (JsError.syntaxError raw) s)
    ∧ (∀ value, s.filterValuesItem = some (JsonText.valid value) → value.truthy = false →
        applyCustomFilters s = Outcome.done s)
    ∧ (∀ value, s.filterValuesItem = some (JsonText.valid value) →
        (∀ c ∈ s.controls, ∀ p, List.lookup c.id value.props = some p → p.truthy = false) →
        applyCustomFilters s = Outcome.done s)
    ∧ (∀ value u, s.filterValuesItem = some (JsonText.valid value) →
        s.ajaxUrl = AjaxUrl.absolute u →
        (∀ c ∈ s.controls, ∀ p, List.lookup c.id value.props = some p → p.truthy = true →
          selectorCompiles p.text = true) →
        ∃ s', applyCustomFilters s = Outcome.done s') := by
  refine ⟨?_, ?_, ?_, ?_, ?_⟩
  · intro h
    simp [applyCustomFilters, JSON_parse, h, JsValue.null]
  · intro raw h
    simp [applyCustomFilters, JSON_parse, h]
  · intro value h ht
    simp [applyCustomFilters, JSON_parse, h, ht]
  · intro value h hnone
    have hnot : ∀ c ∈ s.controls, isRestored value.props c = false := by
      intro c hc
      unfold isRestored
      cases hg : List.lookup c.id value.props with
      | none => rfl
      | some p => exact hnone c hc p hg
    cases ht : value.truthy with
    | false => simp [applyCustomFilters, JSON_parse, h, ht]
    | true =>
      simp only [applyCustomFilters, JSON_parse, h, ht, if_true]
      exact rehydrateEach_not_restored value.props [] s.controls s hnot
  · intro value u h hurl hsel
    cases ht : value.truthy with
    | false => exact ⟨s, by simp [applyCustomFilters, JSON_parse, h, ht]⟩
    | true =>
      obtain ⟨s', hs', -⟩ :=
        rehydrateEach_done value.props s.controls s u rfl hurl hsel
      refine ⟨s', ?_⟩
      simp only [applyCustomFilters, JSON_parse, h, ht, if_true]
      exact hs'

/-- Instance of C9 at an absent slot, at the text `not json`, at the text
`null`, at a stored object naming no control present, and at a stored object
that restores the control `status`. -/
theorem C9_storage_read_witness :
    applyCustomFilters
        ⟨[⟨"status", "", [], none⟩], AjaxUrl.absolute ⟨"https://example.test/data", []⟩, none, []⟩
      = Outcome.done
        ⟨[⟨"status", "", [], none⟩], AjaxUrl.absolute ⟨"https://example.test/data", []⟩, none, []⟩
    ∧ applyCustomFilters
        ⟨[⟨"status", "", [], none⟩], AjaxUrl.absolute ⟨"https://example.test/data", []⟩,
          some (JsonText.invalid "not json"), []⟩
      = Outcome.thrown (JsError.syntaxError "not json")
        ⟨[⟨"status", "", [], none⟩], AjaxUrl.absolute ⟨"https://example.test/data", []⟩,
          some (JsonText.invalid "not json"), []⟩
    ∧ applyCustomFilters
        ⟨[⟨"status", "", [], none⟩], AjaxUrl.relative "/your-endpoint",
          some (JsonText.valid JsValue.null), []⟩
      = Outcome.done
        ⟨[⟨"status", "", [], none⟩], AjaxUrl.relative "/your-endpoint",
          some (JsonText.valid JsValue.null), []⟩
    ∧ applyCustomFilters
        ⟨[⟨"status", "", [], none⟩], AjaxUrl.relative "/your-endpoint",
          some (JSON_stringify [("owner", "kim")]), []⟩
      = Outcome.done
        ⟨[⟨"status", "", [], none⟩], AjaxUrl.relative "/your-endpoint",
          some (JSON_stringify [("owner", "kim")]), []⟩
    ∧ ∃ s', applyCustomFilters
        ⟨[⟨"status", "", [], none⟩], AjaxUrl.absolute ⟨"https://example.test/data", []⟩,
          some (JSON_stringify [("status", "open")]), []⟩ = Outcome.done s' := by
  refine ⟨?_, ?_, ?_, ?_, ?_⟩
  · exact (C9_storage_read
      ⟨[⟨"status", "", [], none⟩], AjaxUrl.absolute ⟨"https://example.test/data", []⟩, none,
        []⟩).1 rfl
  · exact (C9_storage_read
      ⟨[⟨"status", "", [], none⟩], AjaxUrl.absolute ⟨"https://example.test/data", []⟩,
        some (JsonText.invalid "not json"), []⟩).2.1 "not json" rfl
  · exact (C9_storage_read
      ⟨[⟨"status", "", [], none⟩], AjaxUrl.relative "/your-endpoint",
        some (JsonText.valid JsValue.null), []⟩).2.2.1 JsValue.null rfl rfl
  · exact (C9_storage_read
      ⟨[⟨"status", "", [], none⟩], AjaxUrl.relative "/your-endpoint",
        some (JSON_stringify [("owner", "kim")]), []⟩).2.2.2.1 _ rfl (by decide)
  · exact (C9_storage_read
      ⟨[⟨"status", "", [], none⟩], AjaxUrl.absolute ⟨"https://example.test/data", []⟩,
        some (JSON_stringify [("status", "open")]), []⟩).2.2.2.2 _
      ⟨"https://example.test/data", []⟩ rfl rfl (by decide)

end DatatableCustomizer
